import Mathlib

/-!
Verification of the pdf-shelf Document Analysis Pipeline.

This file shallow-embeds the Python code of `project/mcp_pdf`
(`tools.py`, `metrics.py`, `pdf_utils.py`, `llm_router.py`,
`gigachat_client.py`, `schema.py`) into Lean and proves properties of the
embedding.

Modelling conventions:
 - Python values are modelled by the inductive `PyVal`; Python `dict`s are
   association lists preserving insertion order (as CPython dicts do).
 - Rational numbers are modelled by `Qv`, a canonical numerator/denominator
   pair (this avoids Mathlib `Rat`, whose kernel reduction is blocked, so
   that concrete runs of the embedded code can be checked by `decide`).
 - Python `float`s are modelled by the exact rational value of the IEEE-754
   double.  Every arithmetic operation on floats rounds its exact rational
   result back to 53 significant bits with round-to-nearest, ties-to-even
   (`f64`), which is exactly the IEEE semantics for results in the normal
   range (no overflow/underflow occurs at the magnitudes used here).
   `qv 3 / qv 5` written in Lean corresponds to the Python literal `0.6`
   via `f64 (qv 3 / qv 5)`.
 - Python `round(x, n)` is round-half-to-even at `n` decimal digits
   (`round2`, `round1`, `rhe`); `int(x)` truncates toward zero (`pyTrunc`).
 - Fallible Python code is embedded in `Except PyErr`; an `Except.error`
   models an uncaught Python exception.
 - Calls into external services and libraries (the LM providers, `langdetect`,
   PyMuPDF page text extraction) are modelled as explicit parameters: an LM
   call is an `Except PyErr PyVal` outcome, language detection is an oracle
   `String → Option String`, and a PDF document is a list of per-page counts
   (`PageData`), which is exactly the information `_accurate_estimate` and
   `_fast_fallback` read from a page.
-/

/-- Canonical rational number: numerator and positive denominator, always
kept coprime with the denominator positive, so that structural equality is
rational equality. -/
structure Qv where
  num : Int
  den : Nat
deriving DecidableEq, Repr

/-- Build a canonical `Qv` from a fraction (denominator nonzero). -/
def mkQv (n d : Int) : Qv :=
  let s : Int := if d < 0 then -1 else 1
  let n1 := s * n
  let d1 := (s * d).toNat
  let g := Nat.gcd n1.natAbs d1
  if g = 0 then ⟨0, 1⟩ else ⟨Int.tdiv n1 (g : Int), d1 / g⟩

/-- Embed an integer. -/
def qv (n : Int) : Qv := ⟨n, 1⟩

instance : OfNat Qv n := ⟨⟨(n : Int), 1⟩⟩

instance : OfScientific Qv :=
  ⟨fun m b e => if b then mkQv (m : Int) ((10 ^ e : Nat) : Int) else ⟨(m : Int) * (10 ^ e : Nat), 1⟩⟩

instance : Neg Qv := ⟨fun a => ⟨-a.num, a.den⟩⟩

instance : Add Qv := ⟨fun a b => mkQv (a.num * (b.den : Int) + b.num * (a.den : Int)) ((a.den : Int) * (b.den : Int))⟩

instance : Sub Qv := ⟨fun a b => a + (-b)⟩

instance : Mul Qv := ⟨fun a b => mkQv (a.num * b.num) ((a.den : Int) * (b.den : Int))⟩

instance : Div Qv := ⟨fun a b => mkQv (a.num * (b.den : Int)) ((a.den : Int) * b.num)⟩

/-- Boolean strict order on `Qv` (denominators are positive). -/
def Qv.blt (a b : Qv) : Bool := a.num * (b.den : Int) < b.num * (a.den : Int)

/-- Boolean order on `Qv`. -/
def Qv.ble (a b : Qv) : Bool := a.num * (b.den : Int) ≤ b.num * (a.den : Int)

/-- Minimum. -/
def Qv.bmin (a b : Qv) : Qv := if Qv.ble a b then a else b

/-- Maximum. -/
def Qv.bmax (a b : Qv) : Qv := if Qv.ble a b then b else a

/-- Floor of a rational, computed with integer floor-division. -/
def ratFloor (q : Qv) : Int := Int.fdiv q.num (q.den : Int)

/-- Python `int()` truncation toward zero of a rational. -/
def pyTrunc (q : Qv) : Int := Int.tdiv q.num (q.den : Int)

/-- Round half to even to an integer (the rounding used by Python `round`). -/
def rhe (q : Qv) : Int :=
  let f := ratFloor q
  let r := q - qv f
  if Qv.blt r (mkQv 1 2) then f
  else if Qv.blt (mkQv 1 2) r then f + 1
  else if f % 2 = 0 then f else f + 1

/-- Python `round(x, 2)` (value of the resulting decimal). -/
def round2 (q : Qv) : Qv := qv (rhe (q * qv 100)) / qv 100

/-- Python `round(x, 1)` (value of the resulting decimal). -/
def round1 (q : Qv) : Qv := qv (rhe (q * qv 10)) / qv 10

/-- Binade search used by `f64`: returns `e` such that `q * 2^(-e) ∈ [1, 2)`
for positive `q`; fuel-bounded structural recursion (1200 steps cover the
whole double range). -/
def f64Exp : Nat → Qv → Int
  | 0, _ => 0
  | fuel + 1, q =>
    if Qv.blt q 1 then f64Exp fuel (qv 2 * q) - 1
    else if Qv.ble 2 q then f64Exp fuel (q / qv 2) + 1
    else 0

/-- Two to an integer power, as a rational. -/
def pow2 (e : Int) : Qv :=
  if 0 ≤ e then ⟨((2 ^ e.toNat : Nat) : Int), 1⟩ else ⟨1, 2 ^ (-e).toNat⟩

/-- Round a positive rational to the nearest IEEE-754 double
(53-bit significand, ties to even). -/
def f64Pos (q : Qv) : Qv :=
  let e := f64Exp 1200 q
  let m := rhe (q * pow2 (52 - e))
  qv m * pow2 (e - 52)

/-- Round a rational to the nearest IEEE-754 double (normal range). -/
def f64 (q : Qv) : Qv :=
  if q = 0 then 0 else if Qv.blt q 0 then -(f64Pos (-q)) else f64Pos q

/-- IEEE double addition (exact sum, then rounding). -/
def f64add (a b : Qv) : Qv := f64 (a + b)

/-- IEEE double multiplication (exact product, then rounding). -/
def f64mul (a b : Qv) : Qv := f64 (a * b)

/-- IEEE double division (exact quotient, then rounding). -/
def f64div (a b : Qv) : Qv := f64 (a / b)

/-- Python exception kinds raised by the embedded code. -/
inductive PyErr where
  | typeError (msg : String)
  | attributeError (msg : String)
  | valueError (msg : String)
  | keyError (msg : String)
  | runtimeError (msg : String)
  | jsonDecodeError (msg : String)
deriving DecidableEq, Repr

/-- Model of a Python value, as produced by `json.loads` plus the values the
embedded code builds itself.  Dicts are insertion-ordered association lists,
matching CPython semantics. -/
inductive PyVal where
  | none
  | bool (b : Bool)
  | int (i : Int)
  | float (q : Qv)
  | str (s : String)
  | list (xs : List PyVal)
  | dict (xs : List (String × PyVal))
deriving Repr

/-- Association list of string keys, the model of a Python dict. -/
abbrev PyDict := List (String × PyVal)

/-- Lookup of the (unique) binding of a key. -/
def dlookup (d : PyDict) (k : String) : Option PyVal :=
  match d with
  | [] => Option.none
  | (k1, v) :: rest => if k1 = k then some v else dlookup rest k

/-- Python `k in d`. -/
def dmem (d : PyDict) (k : String) : Bool := (dlookup d k).isSome

/-- Python `d.get(k)` (defaults to `None`). -/
def dgetN (d : PyDict) (k : String) : PyVal := (dlookup d k).getD PyVal.none

/-- Python `d.get(k, dflt)`. -/
def dgetD (d : PyDict) (k : String) (dflt : PyVal) : PyVal := (dlookup d k).getD dflt

/-- Python `d[k] = v`: replace in place, or append a new binding. -/
def dset (d : PyDict) (k : String) (v : PyVal) : PyDict :=
  match d with
  | [] => [(k, v)]
  | (k1, v1) :: rest => if k1 = k then (k1, v) :: rest else (k1, v1) :: dset rest k v

/-- Python truthiness. -/
def truthy : PyVal → Bool
  | .none => false
  | .bool b => b
  | .int i => i != 0
  | .float q => q.num != 0
  | .str s => s != ""
  | .list xs => !xs.isEmpty
  | .dict xs => !xs.isEmpty

/-- Python `a or b` (value-returning, short-circuit). -/
def pyOr (a b : PyVal) : PyVal := if truthy a then a else b

/-- Numeric view of a value: `isinstance(v, (int, float))`, with the flag
telling whether the value is an `int` (Python `bool` is a subclass of `int`). -/
def PyVal.toNum? : PyVal → Option (Bool × Qv)
  | .int i => some (true, qv i)
  | .bool b => some (true, if b then 1 else 0)
  | .float q => some (false, q)
  | _ => Option.none

/-- Whether `isinstance(v, (int, float))` holds. -/
def isNumeric (v : PyVal) : Bool := v.toNum?.isSome

/-- Whether the value is `None`. -/
def PyVal.isNone : PyVal → Bool
  | .none => true
  | _ => false

/-- Python equality against a string literal (a non-string never equals a
string in Python). -/
def pyEqStr (v : PyVal) (s : String) : Bool :=
  match v with
  | .str t => t == s
  | _ => false

/-- Contiguous-sublist test on character lists. -/
def listInfixB (needle : List Char) : List Char → Bool
  | [] => needle.isEmpty
  | c :: cs => List.isPrefixOf needle (c :: cs) || listInfixB needle cs

/-- Substring test (`sub in s` for strings). -/
def strContainsSub (s sub : String) : Bool := listInfixB sub.toList s.toList

/-- Python `s.startswith(pre)`. -/
def strStartsWith (s pre : String) : Bool := List.isPrefixOf pre.toList s.toList

/-- Python `s.endswith(suf)`. -/
def strEndsWith (s suf : String) : Bool := List.isSuffixOf suf.toList s.toList

/-- Python `s.lower()` (ASCII; the code only lowercases ASCII data). -/
def lowerStr (s : String) : String := String.mk (s.toList.map Char.toLower)

/-- Python `k in c` for the container shapes the code meets; raises
`TypeError` on non-iterable values exactly as CPython does. -/
def pyContains (c : PyVal) (k : String) : Except PyErr Bool :=
  match c with
  | .dict d => .ok (dmem d k)
  | .str s => .ok (strContainsSub s k)
  | .list xs => .ok (xs.any fun v => pyEqStr v k)
  | _ => .error (.typeError "argument of this type is not iterable")

/-- Python `c[k]` with a string key. -/
def pySubscript (c : PyVal) (k : String) : Except PyErr PyVal :=
  match c with
  | .dict d =>
    match dlookup d k with
    | some v => .ok v
    | Option.none => .error (.keyError k)
  | _ => .error (.typeError "indices must be integers")

/-- Python `c.get(k)`: only dicts have `.get`. -/
def pyDictGet (c : PyVal) (k : String) : Except PyErr PyVal :=
  match c with
  | .dict d => .ok (dgetN d k)
  | _ => .error (.attributeError "object has no attribute get")

/-- Python `c.get(k, dflt)`. -/
def pyDictGetD (c : PyVal) (k : String) (dflt : PyVal) : Except PyErr PyVal :=
  match c with
  | .dict d => .ok (dgetD d k dflt)
  | _ => .error (.attributeError "object has no attribute get")

/-- Python whitespace (`\s` over the character sets in play). -/
def isPyWs (c : Char) : Bool :=
  c == ' ' || c == '\t' || c == '\n' || c == Char.ofNat 13 || c == Char.ofNat 11 || c == Char.ofNat 12

/-- Digit-run parse helper. -/
def parseDigitsAux : List Char → Nat → Option Nat
  | [], acc => some acc
  | c :: cs, acc =>
    if c.isDigit then parseDigitsAux cs (acc * 10 + (c.toNat - 48)) else Option.none

/-- Nonempty digit run. -/
def parseDigitsNE (cs : List Char) : Option Nat :=
  if cs.isEmpty then Option.none else parseDigitsAux cs 0

/-- Python `int(s)` on strings: optional surrounding whitespace, optional
sign, decimal digits. -/
def parseIntStr (s : String) : Option Int :=
  let cs := ((s.toList.dropWhile isPyWs).reverse.dropWhile isPyWs).reverse
  match cs with
  | '-' :: rest => (parseDigitsNE rest).map (fun n => -(n : Int))
  | '+' :: rest => (parseDigitsNE rest).map (fun n => (n : Int))
  | rest => (parseDigitsNE rest).map (fun n => (n : Int))

/-- Python `float(s)` on strings (plain decimal forms; the exponent notation
is not exercised by the embedded code).  The decimal is rounded to the
nearest double as CPython does. -/
def parseFloatStr (s : String) : Option Qv :=
  let cs := ((s.toList.dropWhile isPyWs).reverse.dropWhile isPyWs).reverse
  let signed : Bool × List Char :=
    match cs with
    | '-' :: rest => (true, rest)
    | '+' :: rest => (false, rest)
    | rest => (false, rest)
  let body := signed.2
  let intPart := body.takeWhile Char.isDigit
  let after := body.dropWhile Char.isDigit
  let q? : Option Qv :=
    match after with
    | [] => (parseDigitsNE intPart).map (fun n => qv n)
    | '.' :: frac =>
      if frac.all Char.isDigit ∧ (intPart ≠ [] ∨ frac ≠ []) then
        match parseDigitsAux intPart 0, parseDigitsAux frac 0 with
        | some ip, some fp => some (qv ip + mkQv fp ((10 ^ frac.length : Nat) : Int))
        | _, _ => Option.none
      else Option.none
    | _ => Option.none
  q?.map (fun q => f64 (if signed.1 then -q else q))

/-- Python `int(v)`. -/
def pyIntOf : PyVal → Except PyErr Int
  | .int i => .ok i
  | .bool b => .ok (if b then 1 else 0)
  | .float q => .ok (pyTrunc q)
  | .str s =>
    match parseIntStr s with
    | some i => .ok i
    | Option.none => .error (.valueError "invalid literal for int")
  | _ => .error (.typeError "int argument must be a string or a number")

/-- Python `float(v)`. -/
def pyFloatOf : PyVal → Except PyErr Qv
  | .int i => .ok (f64 (qv i))
  | .bool b => .ok (if b then 1 else 0)
  | .float q => .ok q
  | .str s =>
    match parseFloatStr s with
    | some q => .ok q
    | Option.none => .error (.valueError "could not convert string to float")
  | _ => .error (.typeError "float argument must be a string or a number")

/-- Python `v.lower()` as used on `meta` values: only strings succeed. -/
def pyLowerOf : PyVal → Except PyErr String
  | .str s => .ok (lowerStr s)
  | _ => .error (.attributeError "object has no attribute lower")

/-- Word characters of the Python regex `\W` complement: ASCII alphanumerics,
underscore and the Cyrillic block; Python `\w` is full Unicode, which
coincides with this on the character sets the repository handles. -/
def pyIsWordChar (c : Char) : Bool :=
  c.isAlphanum || c == '_' || (0x400 ≤ c.toNat && c.toNat ≤ 0x4FF)

/-- Maximal runs of non-whitespace characters: the nonempty tokens of
`re.split(r"\s+", text)` (the empty tokens produced at the ends are skipped
by the source loop anyway). -/
def wsTokensAux : List Char → List Char → List (List Char)
  | [], cur => if cur.isEmpty then [] else [cur.reverse]
  | c :: cs, cur =>
    if isPyWs c then
      if cur.isEmpty then wsTokensAux cs [] else cur.reverse :: wsTokensAux cs []
    else wsTokensAux cs (c :: cur)

/-- The regex `(?i)https?://` anchored at the token start. -/
def isUrlToken (t : List Char) : Bool :=
  let low := t.map Char.toLower
  List.isPrefixOf "http://".toList low || List.isPrefixOf "https://".toList low

/-- Embedding of `pdf_utils.count_words_and_chars`: tokens split on
whitespace, URL tokens and tokens with at most one word character dropped;
the character count is the count of non-whitespace characters (the source
collapses whitespace runs to single spaces with `_normalize_spaces` and then
deletes the spaces, which leaves exactly the non-whitespace characters). -/
def countWordsAndChars (text : String) : Nat × Nat :=
  let toks := wsTokensAux text.toList []
  let wordToks := toks.filter fun t =>
    !(isUrlToken t) && ((t.filter pyIsWordChar).length > 1)
  let charCount := (text.toList.filter (fun c => !(isPyWs c))).length
  (wordToks.length, charCount)

/-- Embedding of `pdf_utils.estimate_reading_time_min`.  The source sets
`wpm = 180`, switches to 200 when `lang` is truthy and starts with `"en"`
(the `elif` branch for `"ru"` keeps 180), and returns
`round(word_count / max(wpm, 1), 1)`.  A truthy non-string `lang` raises
`AttributeError` at `lang.startswith`; a non-numeric word count raises
`TypeError` at the division. -/
def estimateReadingTimeMin (lang wc : PyVal) : Except PyErr Qv := do
  let wpm : Int ←
    if truthy lang then
      match lang with
      | .str s => pure (if strStartsWith s "en" then 200 else 180)
      | _ => .error (.attributeError "object has no attribute startswith")
    else pure 180
  match wc.toNum? with
  | some (_, q) => pure (round1 (f64div q (qv (max wpm 1))))
  | Option.none => .error (.typeError "unsupported operand type for division")

/-- Embedding of `pdf_utils.avg_chars_per_word_from_first_page`
(`clamp(no_spaces / max(w1, 1), 4.5, 6.5)`). -/
def avgCharsPerWordFromFirstPage (text : String) (w1 : Nat) : Qv :=
  let noSpaces := (text.toList.filter (fun c => !(isPyWs c))).length
  let base := f64div (qv noSpaces) (qv (max (w1 : Int) 1))
  Qv.bmax 4.5 (Qv.bmin 6.5 base)

/-- Embedding of `pdf_utils.estimate_char_count_from_first`
(`int(round(total_words * avg_chars_per_word))`). -/
def estimateCharCountFromFirst (avg : Qv) (totalWords : Int) : Int :=
  rhe (f64mul (qv totalWords) avg)

/-- Top-level Russian-to-English key mapping of the Normalizer
(`key_mapping` in `_normalize_llm_response`). -/
def keyMapping : List (String × String) :=
  [("объём", "volume"), ("объем", "volume"), ("сложность", "complexity"),
   ("тематика", "topics"), ("категория", "category"), ("ограничения", "limitations")]

/-- Python `key_mapping.get(key, key)`. -/
def mapKey (k : String) : String := (List.lookup k keyMapping).getD k

/-- The `normalized_data` dict: every top-level key passed through
`key_mapping` (later duplicates overwrite, as in CPython). -/
def normalizeKeys (data : PyDict) : PyDict :=
  data.foldl (fun acc kv => dset acc (mapKey kv.1) kv.2) []

/-- Embedding of `volume_mapping` of the Normalizer. -/
def volumeMapping : List (String × List String) :=
  [("word_count", ["word_count", "количество_слов", "words"]),
   ("char_count", ["char_count", "количество_символов", "chars"]),
   ("page_count", ["page_count", "количество_страниц", "pages"]),
   ("byte_size", ["byte_size", "размер_в_байтах", "size"]),
   ("reading_time_min",
    ["reading_time_min", "read_time_minutes", "reading_time_minutes",
     "время_чтения_минут", "time_to_read_minutes"])]

/-- Embedding of `complexity_mapping` of the Normalizer. -/
def complexityMapping : List (String × List String) :=
  [("score", ["score", "оценка", "оценка_1_5"]),
   ("level", ["level", "label", "уровень"]),
   ("estimated_grade", ["estimated_grade", "grade", "класс"]),
   ("drivers", ["drivers", "ключевые_слова", "keywords"]),
   ("notes", ["notes", "description", "basis", "основание", "описание"])]

/-- Inner loop `for key in possible_keys: if key in raw: ...; break`.
The membership test itself can raise `TypeError` on non-iterable values. -/
def findFirstKey (raw : PyVal) : List String → Except PyErr (Option PyVal)
  | [] => .ok Option.none
  | k :: ks => do
    let b ← pyContains raw k
    if b then do
      let v ← pySubscript raw k
      pure (some v)
    else findFirstKey raw ks

/-- Score coercion of the Normalizer complexity loop: numbers in [0, 1] go
to `int(value * 100)` (float multiply when the value is a float); the
remaining ints in [1, 5] go to `int((value / 5) * 100)`; all other numbers
go to `int(value)`. -/
def coerceScore (isInt : Bool) (q : Qv) : PyVal :=
  if Qv.ble 0 q && Qv.ble q 1 then
    .int (if isInt then pyTrunc (q * qv 100) else pyTrunc (f64mul q (qv 100)))
  else if isInt && Qv.ble 1 q && Qv.ble q 5 then
    .int (pyTrunc (f64mul (f64div q (qv 5)) (qv 100)))
  else .int (pyTrunc q)

/-- Per-key transform inside the complexity loop (`score` rescaling and the
`drivers` list/str coercion; everything else is copied unchanged). -/
def complexityTransform (engKey : String) (value : PyVal) : PyVal :=
  if engKey == "score" then
    match value.toNum? with
    | some p => coerceScore p.1 p.2
    | Option.none => value
  else if engKey == "drivers" then
    match value with
    | .list _ => value
    | .str s => .list [.str s]
    | _ => value
  else value

/-- Outer loop over a field mapping, accumulating the first hit for each
canonical key. -/
def fillMapped (raw : PyVal) (transform : String → PyVal → PyVal)
    (mapping : List (String × List String)) : Except PyErr PyDict :=
  mapping.foldlM
    (fun acc ekeys => do
      match ← findFirstKey raw ekeys.2 with
      | some v => pure (dset acc ekeys.1 (transform ekeys.1 v))
      | Option.none => pure acc)
    []

/-- Python `if k not in d: d[k] = v` (the gap-filling pattern of the
Normalizer). -/
def dictSetDefault (d : PyDict) (k : String) (v : PyVal) : PyDict :=
  if dmem d k then d else dset d k v

/-- The `reading_time_min` fallback of the `volume` section: when the field
is absent it is recomputed from the extracted word count and language. -/
def volRtm (vol : PyDict) (docLang : PyVal) : Except PyErr PyDict :=
  if dmem vol "reading_time_min" then pure vol
  else do
    let words := dgetD vol "word_count" (.int 0)
    let rtm ← estimateReadingTimeMin docLang words
    pure (dset vol "reading_time_min" (.float rtm))

/-- The `volume` section of the Normalizer: mapped fields, metadata
fallbacks, recomputed reading time, and the `method` sub-dict. -/
def buildVolume (raw : PyVal) (meta : PyDict) (text : String) (docLang : PyVal) :
    Except PyErr PyDict := do
  let vol ← fillMapped raw (fun _ v => v) volumeMapping
  let vol := dictSetDefault vol "word_count"
    (pyOr (dgetN meta "precomputed_word_count") (.int 0))
  let vol := dictSetDefault vol "char_count" (.int ((countWordsAndChars text).2 : Int))
  let vol := dictSetDefault vol "page_count" (dgetN meta "page_count")
  let vol := dictSetDefault vol "byte_size" (dgetN meta "byte_size")
  let vol ← volRtm vol docLang
  let methodVal : PyVal := .dict
    [("word_count", .str (if truthy (dgetN meta "__reading_time_breakdown")
        then "content_based_full_scan" else "precomputed")),
     ("char_count", .str "estimated_no_spaces")]
  pure (dset vol "method" methodVal)

/-- The `notes` default of the `complexity` section: reads `complexity_raw`
with `.get`, which raises `AttributeError` on non-dict values. -/
def compNotes (comp : PyDict) (raw : PyVal) : Except PyErr PyDict :=
  if dmem comp "notes" then pure comp
  else do
    let a ← pyDictGet raw "basis"
    let b ← pyDictGet raw "description"
    pure (dset comp "notes" (pyOr a (pyOr b (.str ""))))

/-- The rest of the `complexity` section: mapped and coerced fields, then
the schema defaults. -/
def buildComplexity (raw : PyVal) : Except PyErr PyDict := do
  let comp ← fillMapped raw complexityTransform complexityMapping
  let comp := dictSetDefault comp "score" (.int 40)
  let comp := dictSetDefault comp "level" (.str "средняя")
  let comp := dictSetDefault comp "estimated_grade" (.str "школьный")
  let comp := dictSetDefault comp "drivers" (.list [])
  compNotes comp raw

/-- Single-object `topics` branch of the Normalizer. -/
def topicFromDict (d : PyDict) : Option PyVal :=
  let label := pyOr (dgetN d "label") (pyOr (dgetN d "major") (.str ""))
  let score := pyOr (dgetN d "score") (.float (mkQv 1 2))
  let kwsRaw := pyOr (dgetN d "keywords") (pyOr (dgetN d "minor") (.list []))
  let kws : PyVal :=
    match kwsRaw with
    | .str s => .list [.str s]
    | .list xs => .list xs
    | _ => .list []
  let rationale := pyOr (dgetN d "rationale") (pyOr (dgetN d "basis") (.str ""))
  if truthy label then
    some (.dict [("label", label), ("score", score), ("keywords", kws), ("rationale", rationale)])
  else Option.none

/-- List-item `topics` branch of the Normalizer (non-dict items skipped). -/
def topicFromListItem (t : PyVal) : Option PyVal :=
  match t with
  | .dict d =>
    let label := pyOr (dgetN d "label") (.str "")
    if truthy label then
      some (.dict [("label", label), ("score", pyOr (dgetN d "score") (.float (mkQv 1 2))),
                   ("keywords", pyOr (dgetN d "keywords") (.list [])),
                   ("rationale", pyOr (dgetN d "rationale") (.str ""))])
    else Option.none
  | _ => Option.none

/-- The `topics` section of the Normalizer (before the `[:6]` cap). -/
def buildTopics (raw : PyVal) : List PyVal :=
  match raw with
  | .dict d => (topicFromDict d).toList
  | .list ts => ts.filterMap topicFromListItem
  | _ => []

/-- The `score` fallback of the `category` section: a `None` score falls
back to a `confidence` value (floated when numeric, else 0.0), defaulting
to 0.0. -/
def categoryScore (catRaw : PyVal) (score0 : PyVal) : Except PyErr PyVal :=
  if score0.isNone then do
    let c1 ← pyDictGet catRaw "confidence"
    let c2 ← pyDictGet catRaw "уверенность"
    let sv := pyOr c1 c2
    if !(sv.isNone) then
      pure (match sv.toNum? with
        | some p => PyVal.float (f64 p.2)
        | Option.none => PyVal.float 0)
    else pure (PyVal.float 0)
  else pure score0

/-- The `category` section of the Normalizer.  All reads go through `.get`,
which raises `AttributeError` when `category_raw` is a truthy non-dict. -/
def buildCategory (nd data : PyDict) : Except PyErr PyDict := do
  let catRaw := pyOr (dgetN nd "category") (pyOr (dgetN data "category")
    (pyOr (dgetN nd "категория") (pyOr (dgetN data "категория") (.dict []))))
  let la ← pyDictGet catRaw "label"
  let lb ← pyDictGet catRaw "name"
  let lc ← pyDictGet catRaw "title"
  let label := pyOr la (pyOr lb (pyOr lc (.str "Другое")))
  let score0 ← pyDictGet catRaw "score"
  let score ← categoryScore catRaw score0
  let b1 ← pyDictGet catRaw "basis"
  let b2 ← pyDictGet catRaw "description"
  let b3 ← pyDictGet catRaw "основание"
  let b4 ← pyDictGet catRaw "описание"
  let basis := pyOr b1 (pyOr b2 (pyOr b3 (pyOr b4
    (.str (if pyEqStr label "Другое" then "none" else "llm")))))
  let k1 ← pyDictGet catRaw "keywords"
  let k2 ← pyDictGet catRaw "ключевые_слова"
  let kws0 := pyOr k1 (pyOr k2 (.list []))
  let kws : PyVal :=
    match kws0 with
    | .str s => .list [.str s]
    | .list xs => .list xs
    | _ => .list []
  pure [("label", label), ("score", score), ("basis", basis), ("keywords", kws)]

/-- The `limitations` section of the Normalizer. -/
def buildLimitations (raw : PyVal) (w1 : Nat) : Except PyErr PyDict := do
  let sni ← pyDictGetD raw "short_or_noisy_input" (.bool (decide (w1 < 150)))
  let c1 ← pyDictGet raw "comments"
  let c2 ← pyDictGet raw "description"
  pure [("short_or_noisy_input", sni), ("comments", pyOr c1 (pyOr c2 (.str "")))]

/-- Embedding of `tools._normalize_llm_response`: a field-by-field
transliteration whose fallible operations are evaluated in source order, so
that the first raised exception matches the Python behaviour.  `detect` is
the `langdetect` oracle behind `detect_language_safe`. -/
def normalizeLlmResponse (data meta : PyDict) (text : String)
    (detect : String → Option String) : Except PyErr PyVal := do
  let nd := normalizeKeys data
  let detectVal : PyVal :=
    match detect text with
    | some s => .str s
    | Option.none => .none
  let docLang := pyOr (dgetN nd "doc_language")
    (pyOr (dgetN meta "lang_hint") (pyOr detectVal (.str "ru")))
  let volumeRaw := pyOr (dgetN nd "volume")
    (pyOr (dgetN nd "объём") (pyOr (dgetN nd "объем") (.dict [])))
  let volume ← buildVolume volumeRaw meta text docLang
  let complexityRaw := pyOr (dgetN nd "complexity") (pyOr (dgetN nd "сложность") (.dict []))
  let complexity ← buildComplexity complexityRaw
  let topicsRaw := pyOr (dgetN nd "topics") (pyOr (dgetN nd "тематика") (.dict []))
  let topics := (buildTopics topicsRaw).take 6
  let category ← buildCategory nd data
  let limitationsRaw := pyOr (dgetN nd "limitations") (pyOr (dgetN nd "ограничения") (.dict []))
  let w1 := (countWordsAndChars text).1
  let limitations ← buildLimitations limitationsRaw w1
  pure (.dict [("doc_language", docLang), ("volume", .dict volume),
               ("complexity", .dict complexity), ("topics", .list topics),
               ("category", .dict category), ("limitations", .dict limitations)])

/-- jsonschema type `integer` (Python `bool` is excluded by the library). -/
def jsInt : PyVal → Bool
  | .int _ => true
  | _ => false

/-- jsonschema type `number`. -/
def jsNum : PyVal → Bool
  | .int _ => true
  | .float _ => true
  | _ => false

/-- jsonschema type `string`. -/
def jsStr : PyVal → Bool
  | .str _ => true
  | _ => false

/-- jsonschema type `boolean`. -/
def jsBool : PyVal → Bool
  | .bool _ => true
  | _ => false

/-- jsonschema type `["integer", "null"]`. -/
def jsIntOrNull : PyVal → Bool
  | .int _ => true
  | .none => true
  | _ => false

/-- jsonschema array whose items have type string. -/
def jsStrList : PyVal → Bool
  | .list xs => xs.all jsStr
  | _ => false

/-- A required property: present and valid. -/
def reqKey (d : PyDict) (k : String) (p : PyVal → Bool) : Bool :=
  match dlookup d k with
  | some v => p v
  | Option.none => false

/-- The `method` object of the schema. -/
def jsMethod : PyVal → Bool
  | .dict d => reqKey d "word_count" jsStr && reqKey d "char_count" jsStr
  | _ => false

/-- The `volume` object of the schema. -/
def jsVolume : PyVal → Bool
  | .dict d =>
    reqKey d "word_count" jsInt && reqKey d "char_count" jsInt &&
    reqKey d "page_count" jsIntOrNull && reqKey d "byte_size" jsIntOrNull &&
    reqKey d "reading_time_min" jsNum && reqKey d "method" jsMethod
  | _ => false

/-- The `complexity` object of the schema. -/
def jsComplexity : PyVal → Bool
  | .dict d =>
    reqKey d "score" jsInt && reqKey d "level" jsStr &&
    reqKey d "estimated_grade" jsStr && reqKey d "drivers" jsStrList &&
    reqKey d "notes" jsStr
  | _ => false

/-- One `topics` entry of the schema. -/
def jsTopicItem : PyVal → Bool
  | .dict d =>
    reqKey d "label" jsStr && reqKey d "score" jsNum &&
    reqKey d "keywords" jsStrList && reqKey d "rationale" jsStr
  | _ => false

/-- The `topics` array of the schema (`maxItems: 6`). -/
def jsTopics : PyVal → Bool
  | .list xs => xs.all jsTopicItem && decide (xs.length ≤ 6)
  | _ => false

/-- The `category` object of the schema. -/
def jsCategory : PyVal → Bool
  | .dict d =>
    reqKey d "label" jsStr && reqKey d "score" jsNum &&
    reqKey d "basis" jsStr && reqKey d "keywords" jsStrList
  | _ => false

/-- The `limitations` object of the schema. -/
def jsLimitations : PyVal → Bool
  | .dict d => reqKey d "short_or_noisy_input" jsBool && reqKey d "comments" jsStr
  | _ => false

/-- Embedding of `schema.ANALYSIS_JSON_SCHEMA` as a decidable validator:
all `required` keys with their declared types; additional properties are
allowed, exactly as in the schema document. -/
def analysisSchemaValid : PyVal → Bool
  | .dict d =>
    reqKey d "doc_language" jsStr && reqKey d "volume" jsVolume &&
    reqKey d "complexity" jsComplexity && reqKey d "topics" jsTopics &&
    reqKey d "category" jsCategory && reqKey d "limitations" jsLimitations
  | _ => false

/-- Presence-only skeleton of the schema: every `required` key exists at
every nesting level (types not checked), and `topics` respects `maxItems`. -/
def skeletonOk : PyVal → Bool
  | .dict d =>
    reqKey d "doc_language" (fun _ => true) &&
    reqKey d "volume" (fun v =>
      match v with
      | .dict vd =>
        dmem vd "word_count" && dmem vd "char_count" && dmem vd "page_count" &&
        dmem vd "byte_size" && dmem vd "reading_time_min" &&
        reqKey vd "method" (fun m =>
          match m with
          | .dict md => dmem md "word_count" && dmem md "char_count"
          | _ => false)
      | _ => false) &&
    reqKey d "complexity" (fun v =>
      match v with
      | .dict cd =>
        dmem cd "score" && dmem cd "level" && dmem cd "estimated_grade" &&
        dmem cd "drivers" && dmem cd "notes"
      | _ => false) &&
    reqKey d "topics" (fun v =>
      match v with
      | .list xs =>
        xs.all (fun t =>
          match t with
          | .dict td =>
            dmem td "label" && dmem td "score" && dmem td "keywords" && dmem td "rationale"
          | _ => false) && decide (xs.length ≤ 6)
      | _ => false) &&
    reqKey d "category" (fun v =>
      match v with
      | .dict cd => dmem cd "label" && dmem cd "score" && dmem cd "basis" && dmem cd "keywords"
      | _ => false) &&
    reqKey d "limitations" (fun v =>
      match v with
      | .dict ld => dmem ld "short_or_noisy_input" && dmem ld "comments"
      | _ => false)
  | _ => false

/-- A topic literal as built by `_fallback_simple_analysis`. -/
def mkTopicLit (label : String) (score : Qv) (kws : List String) (rationale : String) : PyVal :=
  .dict [("label", .str label), ("score", .float score),
         ("keywords", .list (kws.map PyVal.str)), ("rationale", .str rationale)]

/-- Embedding of `tools._fallback_simple_analysis` (the Heuristic
Analyzer).  Fallible operations appear in source order: the `int(...)` and
`float(...)` coercions of metadata values, `estimate_reading_time_min`, and
the `.lower()`/`.split(...)` calls on `meta["source_name"]`. -/
def fallbackSimpleAnalysis (text : String) (meta : PyDict)
    (detect : String → Option String) : Except PyErr PyVal := do
  let w1 := (countWordsAndChars text).1
  let detectVal : PyVal :=
    match detect text with
    | some s => .str s
    | Option.none => .none
  let breakdown := dgetN meta "__reading_time_breakdown"
  let contentWords : Option Int :=
    match breakdown with
    | .dict bd =>
      match dgetN bd "words" with
      | .int w => some w
      | .bool b => some (if b then 1 else 0)
      | _ => Option.none
    | _ => Option.none
  let (totalWords, reading, methodWc) ← (do
    match contentWords with
    | some w => do
      let hostF ← pyFloatOf (pyOr (dgetN meta "__reading_time_min_host") (.float 0))
      pure ((w : Int), round2 hostF, "content_based_full_scan")
    | Option.none => do
      let tw ← pyIntOf (pyOr (dgetN meta "precomputed_word_count") (.int (w1 : Int)))
      let langTmp := pyOr (dgetN meta "lang_hint") (pyOr detectVal (.str "ru"))
      let rd ← estimateReadingTimeMin langTmp (.int tw)
      pure (tw, rd, "precomputed") :
    Except PyErr (Int × Qv × String))
  let lang := pyOr (dgetN meta "lang_hint") (pyOr detectVal (.str "ru"))
  let avgCpw := avgCharsPerWordFromFirstPage text w1
  let ccEst := estimateCharCountFromFirst avgCpw totalWords
  let (score, level, grade, note) :
      Int × String × String × String :=
    if w1 < 150 then (15, "низкая", "школьный", "мало текста")
    else (40, "средняя", "школьный", "эвристика без LLM")
  let sourceName ← pyLowerOf (dgetD meta "source_name" (.str ""))
  let (categoryLabel, topics) ← (do
    if ["tech", "programming", "code", "dev", "github"].any
        (fun k => strContainsSub sourceName k) then
      pure ("Технологии",
        [mkTopicLit "Технологии" (f64 (mkQv 4 5)) ["программирование", "разработка"]
          "эвристика по имени файла"])
    else if ["ml", "ai", "machine", "learning", "neural", "data"].any
        (fun k => strContainsSub sourceName k) then
      pure ("Machine Learning",
        [mkTopicLit "Machine Learning" (f64 (mkQv 4 5)) ["ML", "AI", "данные"]
          "эвристика по имени файла"])
    else if ["science", "research", "paper", "journal"].any
        (fun k => strContainsSub sourceName k) then
      pure ("Наука",
        [mkTopicLit "Наука" (f64 (mkQv 7 10)) ["исследование", "наука"]
          "эвристика по имени файла"])
    else if ["business", "economy", "finance", "market"].any
        (fun k => strContainsSub sourceName k) then
      pure ("Бизнес",
        [mkTopicLit "Бизнес" (f64 (mkQv 7 10)) ["экономика", "финансы"]
          "эвристика по имени файла"])
    else do
      let snv := dgetD meta "source_name" (.str "Документ")
      let s ← (match snv with
        | .str s => pure s
        | _ => .error (.attributeError "object has no attribute split") :
        Except PyErr String)
      let seg := (((s.splitOn "/").getLastD "").splitOn ".").headD ""
      let label0 := if seg == "" then "Документ" else seg
      let label := if label0.length > 50 then "Документ" else label0
      pure (label, [mkTopicLit "Общее" (mkQv 1 2) [] "категория по умолчанию"]) :
    Except PyErr (String × List PyVal))
  pure (.dict
    [("doc_language", lang),
     ("volume", .dict
       [("word_count", .int totalWords),
        ("char_count", .int ccEst),
        ("page_count", dgetN meta "page_count"),
        ("byte_size", dgetN meta "byte_size"),
        ("reading_time_min", .float reading),
        ("method", .dict [("word_count", .str methodWc),
                          ("char_count", .str "estimated_no_spaces")])]),
     ("complexity", .dict
       [("score", .int score),
        ("level", .str level),
        ("estimated_grade", .str grade),
        ("drivers", .list [.str "эвристическая оценка"]),
        ("notes", .str note)]),
     ("topics", .list topics),
     ("category", .dict
       [("label", .str categoryLabel),
        ("score", .float (f64 (mkQv 3 5))),
        ("basis", .str "filename"),
        ("keywords", .list [])]),
     ("limitations", .dict
       [("short_or_noisy_input", .bool (decide (w1 < 150))),
        ("comments", .str note)])])

/-- The `str(doc_lang).lower().startswith("en")` test of
`analyze_text_tool`: only string values can start with `"en"` (the `str()`
representations of the other value shapes start with digits, brackets,
quotes, `None`, `True` or `False`, none of which lowercase to an `"en"`
prefix). -/
def startsEnVal (v : PyVal) : Bool :=
  match v with
  | .str s => strStartsWith (lowerStr s) "en"
  | _ => false

/-- The pure computations of the reading-time post-processing block of
`analyze_text_tool`, up to the first in-place mutation. -/
def postStage1 (data : PyVal) (meta : PyDict) : Except PyErr (Int × Qv) := do
  let breakdown := pyOr (dgetN meta "__reading_time_breakdown") (.dict [])
  let wordsV ← (do
    let a := dgetN meta "precomputed_word_count"
    if truthy a then pure a
    else do
      let b ← pyDictGet breakdown "words"
      pure (pyOr b (.int 0)) :
    Except PyErr PyVal)
  let words ← pyIntOf wordsV
  let dl ← pyDictGet data "doc_language"
  let docLang := pyOr dl (pyOr (dgetN meta "lang_hint") (.str "ru"))
  let level : PyVal :=
    match (do
      let c ← pyDictGetD data "complexity" (.dict [])
      pyDictGet c "level" : Except PyErr PyVal) with
    | .ok v => v
    | .error _ => .none
  let base : Int := if startsEnVal docLang then 200 else 180
  let kq : Qv :=
    match (if truthy level then level else .str "средняя") with
    | .str s => (List.lookup s
        [("очень низкая", f64 (mkQv 11 10)), ("низкая", 1), ("средняя", f64 (mkQv 17 20)),
         ("высокая", f64 (mkQv 7 10)), ("очень высокая", f64 (mkQv 11 20))]).getD
        (f64 (mkQv 17 20))
    | _ => f64 (mkQv 17 20)
  let eff : Int := max 60 (pyTrunc (f64mul (qv base) kq))
  let tText := round2 (f64div (qv words) (qv (max 1 eff)))
  let tNontext : Qv ←
    if truthy breakdown then do
      let s1 ← pyIntOf (← pyDictGetD breakdown "slides_s" (.int 0))
      let s2 ← pyIntOf (← pyDictGetD breakdown "images_s" (.int 0))
      let s3 ← pyIntOf (← pyDictGetD breakdown "tables_s" (.int 0))
      let s4 ← pyIntOf (← pyDictGetD breakdown "code_s" (.int 0))
      pure (round2 (f64div (qv (s1 + s2 + s3 + s4)) (qv 60)))
    else pure 0
  pure (words, round1 (tText + tNontext))

/-- The whole `try`-protected post-processing block of `analyze_text_tool`:
an exception raised before the first mutation leaves `data` unchanged; an
exception at `method["word_count"] = ...` is swallowed after the two
in-place updates on the aliased `volume` sub-object already happened. -/
def analyzePostprocess (data : PyVal) (meta : PyDict) : PyVal :=
  match postStage1 data meta with
  | .error _ => data
  | .ok (words, readingTotal) =>
    match data with
    | .dict dd =>
      match dgetD dd "volume" (.dict []) with
      | .dict vd =>
        let vd1 := dset vd "reading_time_min" (.float readingTotal)
        let wcv := if words != 0 then PyVal.int words else dgetN vd1 "word_count"
        let vd2 := dset vd1 "word_count" wcv
        match dgetD vd2 "method" (.dict []) with
        | .dict md =>
          .dict (dset dd "volume"
            (.dict (dset vd2 "method" (.dict (dset md "word_count" (.str "content_based_full_scan"))))))
        | _ => .dict (dset dd "volume" (.dict vd2))
      | _ => data
    | _ => data

/-- Embedding of `tools.analyze_text_tool`.  `llm` is the outcome of
`_call_gemini(text, llm_meta)` (the private-key filtering of `llm_meta`
only affects what the oracle sees); `useMock` is the `USE_MOCK_ANALYSIS`
environment flag. -/
def analyzeTextTool (text : String) (meta0 : Option PyDict) (useMock : Bool)
    (llm : Except PyErr PyVal) (detect : String → Option String) :
    Except PyErr PyVal :=
  let meta := meta0.getD []
  let meta :=
    if (dgetN meta "precomputed_word_count").isNone then
      let wc := (countWordsAndChars text).1
      let cc := (countWordsAndChars text).2
      let m1 := dset meta "precomputed_word_count" (.int (wc : Int))
      if dmem m1 "char_count" then m1 else dset m1 "char_count" (.int (cc : Int))
    else meta
  if useMock then fallbackSimpleAnalysis text meta detect
  else
    match llm with
    | .ok data => .ok (analyzePostprocess data meta)
    | .error _ => fallbackSimpleAnalysis text meta detect

/-- The neutral fallback decision literally returned by
`classify_or_create_category_tool` when the LM path fails. -/
def neutralCategoryDecision : PyVal :=
  .dict [("decision", .str "created_new"),
         ("category", .dict [("label", .str "Другое"), ("score", .float 0),
                             ("basis", .str "unknown"), ("keywords", .list [])]),
         ("existing_label", .none),
         ("new_category_def", .dict [("label", .str "Другое"),
                                     ("description", .str "без LLM"),
                                     ("keywords", .list [])])]

/-- Embedding of `tools.classify_or_create_category_tool`: the body filters
private metadata keys (which only affects what the LM oracle sees) and
calls `_call_gemini_category` (`llm`); any exception from the call is
replaced by the neutral decision. -/
def classifyOrCreateCategoryTool (text : String) (meta0 : Option PyDict)
    (existing : Option (List PyVal)) (llm : Except PyErr PyVal) :
    Except PyErr PyVal :=
  let _llmMeta := (meta0.getD []).filter (fun kv => !(strStartsWith kv.1 "__"))
  let _ := text
  let _ := existing
  match llm with
  | .ok v => .ok v
  | .error _ => .ok neutralCategoryDecision

/-- Outcome of one attempt inside `GigaChatClient.generate_content`
(token handling abstracted; HTTP retry statuses and raised exceptions
distinguished as in the source). -/
inductive GCOutcome where
  | httpOk (content : String)
  | httpRetryable
  | excTransient (msg : String)
  | excFatal (msg : String)

/-- The retry loop of `GigaChatClient.generate_content`: a 503/429 status
sleeps `2^(attempt+1)` seconds and retries (even on the final attempt, after
which the loop raises the saved last error, or the generic failure when
none was saved); a transient exception retries while `attempt <
max_retries - 1`; any other exception is raised immediately.  Returns the
outcome and the backoff sleeps performed. -/
def gigaLoopAux (script : Nat → GCOutcome) (maxRetries : Nat) :
    Nat → Nat → List Nat → Option PyErr → Except PyErr String × List Nat
  | 0, _, waits, lastErr =>
    (match lastErr with
     | some e => .error e
     | Option.none => .error (.runtimeError "Failed to get content from GigaChat API"), waits)
  | rem + 1, attempt, waits, lastErr =>
    match script attempt with
    | .httpOk c =>
      if c ≠ "" then (.ok c, waits)
      else (.error (.runtimeError "Empty or unexpected content in GigaChat response"), waits)
    | .httpRetryable =>
      gigaLoopAux script maxRetries rem (attempt + 1) (waits ++ [2 ^ (attempt + 1)]) lastErr
    | .excTransient m =>
      if attempt + 1 < maxRetries then
        gigaLoopAux script maxRetries rem (attempt + 1) (waits ++ [2 ^ (attempt + 1)])
          (some (.runtimeError m))
      else (.error (.runtimeError m), waits)
    | .excFatal m => (.error (.runtimeError m), waits)

/-- Embedding of `GigaChatClient.generate_content` over an outcome script
indexed by attempt number. -/
def gigaGenerateContent (script : Nat → GCOutcome) (maxRetries : Nat) :
    Except PyErr String × List Nat :=
  gigaLoopAux script maxRetries maxRetries 0 [] Option.none

/-- Outcome of one LiteLLM `acompletion` call in the Router.  Every
exception class in the source (`AuthenticationError`, the transient
classes, `APIError`, anything else) leads to `continue`, so failures need
no further distinction for control flow. -/
inductive LLOutcome where
  | success (content : String)
  | failure (msg : String)

/-- A configured provider of the Router: the GigaChat direct client with a
per-attempt outcome script, or a LiteLLM-routed provider with a per-call
outcome script.  The router makes at most one LiteLLM call per provider per
`generate_content` invocation (it passes `max_retries=1` to LiteLLM and
does failover itself), so only entry 0 of a LiteLLM script is consulted. -/
inductive ProviderKind where
  | direct (script : Nat → GCOutcome)
  | litellm (script : Nat → LLOutcome)

/-- A provider entry of `LLMRouter.providers`. -/
structure Provider where
  name : String
  kind : ProviderKind

/-- The provider loop of `LLMRouter.generate_content`.  Accumulates the
names of invoked providers and the backoff sleeps performed; the aggregate
error names the last configured provider, as in the source. -/
def routerLoop (allProviders : List Provider) (maxRetries : Nat) :
    List Provider → Option PyErr → List String → List Nat →
    Except PyErr (String × String) × List String × List Nat
  | [], lastErr, invoked, waits =>
    (match lastErr with
     | some _ =>
       .error (.runtimeError ("All LLM providers failed. Last error from " ++
         (match allProviders.getLast? with
          | some p => p.name
          | Option.none => "unknown")))
     | Option.none => .error (.runtimeError "No LLM providers available"), invoked, waits)
  | p :: rest, _lastErr, invoked, waits =>
    match p.kind with
    | .direct script =>
      match gigaGenerateContent script maxRetries with
      | (.ok c, w) => (.ok (c, p.name), invoked ++ [p.name], waits ++ w)
      | (.error e, w) =>
        routerLoop allProviders maxRetries rest (some e) (invoked ++ [p.name]) (waits ++ w)
    | .litellm script =>
      match script 0 with
      | .success c =>
        if c ≠ "" then (.ok (c, p.name), invoked ++ [p.name], waits)
        else routerLoop allProviders maxRetries rest
          (some (.runtimeError "Empty response from LLM")) (invoked ++ [p.name]) waits
      | .failure m =>
        routerLoop allProviders maxRetries rest (some (.runtimeError m))
          (invoked ++ [p.name]) waits

/-- Embedding of `LLMRouter.generate_content` (default `max_retries=3`). -/
def routerGenerateContent (providers : List Provider) (maxRetries : Nat) :
    Except PyErr (String × String) × List String × List Nat :=
  if providers.isEmpty then
    (.error (.runtimeError "No LLM providers configured. Set at least one API key."), [], [])
  else routerLoop providers maxRetries providers Option.none [] []

/-- Per-page content counts: exactly the information `_accurate_estimate`
derives from a PyMuPDF page (`_count_words` of the page text, the image
count, the table-keyword regex hits, and the code-like line count; a page
whose text extraction fails contributes zero words). -/
structure PageData where
  words : Nat
  imgs : Nat
  tables : Nat
  codeLines : Nat
deriving DecidableEq, Repr

/-- Embedding of `K_BY_LEVEL` of `metrics.py`, with the float literals as their exact
double values.  `analyze_text_tool` restates the same mapping inline with
identical entries. -/
def kByLevel : List (String × Qv) :=
  [("очень низкая", f64 (mkQv 11 10)), ("низкая", 1), ("средняя", f64 (mkQv 17 20)),
   ("высокая", f64 (mkQv 7 10)), ("очень высокая", f64 (mkQv 11 20))]

/-- Embedding of `metrics._base_wpm`: falsy language gives 180, otherwise
the lowercased language is matched by prefix against `WPM_BY_LANG` in its
insertion order (`ru` then `en`), defaulting to 180. -/
def baseWpm (lang : Option String) : Int :=
  match lang with
  | Option.none => 180
  | some l =>
    if l == "" then 180
    else
      let ll := lowerStr l
      if strStartsWith ll "ru" then 180
      else if strStartsWith ll "en" then 200
      else 180

/-- Embedding of `metrics._effective_wpm`:
`max(60, int(base * K_BY_LEVEL.get(level or "средняя", 0.85)))`, with the
multiplication performed in IEEE double arithmetic. -/
def effectiveWpm (base : Int) (level : Option String) : Int :=
  let lv :=
    match level with
    | some s => if s == "" then "средняя" else s
    | Option.none => "средняя"
  let k := (List.lookup lv kByLevel).getD (f64 (mkQv 17 20))
  max 60 (pyTrunc (f64mul (qv base) k))

/-- Embedding of `metrics._classify_page`. -/
def classifyPage (words imgs : Nat) : String :=
  if words ≥ 200 then "text"
  else if words ≥ 80 then "mixed"
  else if words ≥ 20 ∧ imgs > 0 then "slide"
  else if imgs > 0 then "slide"
  else "empty"

/-- Accumulator of the `_accurate_estimate` page loop. -/
structure AccAcc where
  totalWords : Nat
  imagesS : Int
  tablesS : Int
  codeS : Int
  slidesS : Int
  pText : Nat
  pMixed : Nat
  pSlide : Nat
  pEmpty : Nat
deriving DecidableEq, Repr

/-- The zero accumulator. -/
def accInit : AccAcc := ⟨0, 0, 0, 0, 0, 0, 0, 0, 0⟩

/-- One iteration of the `_accurate_estimate` page loop: classify the page,
bump the class counter, accumulate words and image seconds for text/mixed
pages, the clamped slide time for slide pages, 12 seconds per table hit and
`int(code_lines * 0.6)` seconds for code-like lines. -/
def accStep (perImage : Int × Int) (acc : AccAcc) (p : PageData) : AccAcc :=
  let cls := classifyPage p.words p.imgs
  let acc :=
    if cls = "text" then { acc with pText := acc.pText + 1 }
    else if cls = "mixed" then { acc with pMixed := acc.pMixed + 1 }
    else if cls = "slide" then { acc with pSlide := acc.pSlide + 1 }
    else { acc with pEmpty := acc.pEmpty + 1 }
  let acc :=
    if cls = "text" ∨ cls = "mixed" then
      { acc with totalWords := acc.totalWords + p.words,
                 imagesS := acc.imagesS + (p.imgs : Int) * perImage.1 }
    else if cls = "slide" then
      let slideTime := Qv.bmax 8 (Qv.bmin 25 (f64add 6 (f64div (qv p.words) (qv 10))))
      { acc with slidesS := acc.slidesS + pyTrunc slideTime }
    else acc
  let acc :=
    if p.tables > 0 then { acc with tablesS := acc.tablesS + (p.tables : Int) * 12 }
    else acc
  if p.codeLines > 0 then
    { acc with codeS := acc.codeS + pyTrunc (f64mul (qv p.codeLines) (f64 (mkQv 3 5))) }
  else acc

/-- The result dictionary of the reading-time estimators (`ReadTimeResult`
plus its breakdown, flattened). -/
structure ReadTimeResult where
  totalMin : Qv
  textMin : Qv
  nontextMin : Qv
  words : Int
  effWpm : Int
  slidesS : Int
  imagesS : Int
  tablesS : Int
  codeS : Int
  pText : Nat
  pMixed : Nat
  pSlide : Nat
  pEmpty : Nat
deriving DecidableEq, Repr

/-- Embedding of `metrics._accurate_estimate`.  The three roundings follow
the source: `text_min` and `nontext_min` are each rounded to two decimals,
and the total is their sum rounded again (the sum of the two rounded
decimals is exact at these magnitudes, so the float addition needs no extra
rounding step). -/
def accurateEstimate (pages : List PageData) (lang : String) (level : Option String)
    (perImage : Int × Int) : ReadTimeResult :=
  let acc := pages.foldl (accStep perImage) accInit
  let eff := effectiveWpm (baseWpm (some lang)) level
  let textMin := round2 (f64div (qv acc.totalWords) (qv (max 1 eff)))
  let nontextMin := round2 (f64div (qv (acc.imagesS + acc.tablesS + acc.codeS + acc.slidesS)) (qv 60))
  let totalMin := round2 (textMin + nontextMin)
  ⟨totalMin, textMin, nontextMin, (acc.totalWords : Int), eff, acc.slidesS, acc.imagesS,
   acc.tablesS, acc.codeS, acc.pText, acc.pMixed, acc.pSlide, acc.pEmpty⟩

/-- Embedding of `metrics._fast_fallback`: the word count is estimated from
the first page alone (`clamp(w1, 60, 900) * page_count` when the sample has
at least 30 words, 300 words per page otherwise, `max(w1, 300)` for an
empty document), and no nontext time is added. -/
def fastFallback (pages : List PageData) (lang : String) (level : Option String) :
    ReadTimeResult :=
  let w1 : Nat :=
    match pages.head? with
    | some p => p.words
    | Option.none => 0
  let pageCount := pages.length
  let totalWords : Int :=
    if pageCount > 0 ∧ w1 ≥ 30 then
      pyTrunc (Qv.bmax 60 (Qv.bmin 900 (qv w1))) * (pageCount : Int)
    else if pageCount > 0 then 300 * (pageCount : Int)
    else max (w1 : Int) 300
  let eff := effectiveWpm (baseWpm (some lang)) level
  let textMin := round2 (f64div (qv totalWords) (qv (max 1 eff)))
  let totalMin := round2 (textMin + 0)
  ⟨totalMin, textMin, 0, totalWords, eff, 0, 0, 0, 0, 0, 0, 0, 0⟩

/-- Python `str.strip()` of surrounding whitespace. -/
def trimStr (s : String) : String :=
  String.mk (((s.toList.dropWhile isPyWs).reverse.dropWhile isPyWs).reverse)

/-- The estimator dispatch of `metrics.estimate_pdf_reading_time_minutes`:
accurate mode runs the full scan, anything else the fast fallback; the mode
actually used is returned alongside. -/
def estimateWithMode (mode : String) (perImage : Int × Int) (pages : List PageData)
    (lang : String) (level : Option String) : ReadTimeResult × String :=
  if mode = "accurate" then (accurateEstimate pages lang level perImage, mode)
  else (fastFallback pages lang level, mode)

/-- Embedding of `metrics.estimate_pdf_reading_time_minutes` from the point
where the document has been opened: `mode0` is the raw
`PDF_MCP_READTIME_MODE` environment value (default `"accurate"`),
`maxPages` the parsed `PDF_MCP_MAX_PAGES` (default 200), and `perImage` the
parsed `PDF_MCP_PER_IMAGE_SECONDS` pair (default `(3, 10)`).  When accurate
mode is requested and the page count exceeds `maxPages`, the mode is
switched to fast. -/
def estimatePdfReadingTimeMinutes (mode0 : String) (maxPages : Int)
    (perImage : Int × Int) (pages : List PageData) (lang : String)
    (level : Option String) : ReadTimeResult × String :=
  estimateWithMode
    (if lowerStr (trimStr mode0) = "accurate" ∧ (pages.length : Int) > maxPages then "fast"
     else lowerStr (trimStr mode0))
    perImage pages lang level

/-- The effective WPM exactly as the specification words it:
`base_wpm(language) × complexity_factor(level)` in exact arithmetic with a
floor of 60 (every base-times-factor product in the table is an integer). -/
def specEffectiveWpm (lang : Option String) (level : Option String) : Int :=
  let k : Qv :=
    match level with
    | some s => (List.lookup s
        [("очень низкая", mkQv 11 10), ("низкая", 1), ("средняя", mkQv 17 20),
         ("высокая", mkQv 7 10), ("очень высокая", mkQv 11 20)]).getD (mkQv 17 20)
    | Option.none => mkQv 17 20
  max 60 (pyTrunc (qv (baseWpm lang) * k))

/-- The reading-time total exactly as the specification formula words it:
`text_minutes = words / effective_wpm`, `nontext_minutes = seconds / 60`,
total their sum rounded to two decimals. -/
def specC6Total (words secs : Int) (lang : String) (level : Option String) : Qv :=
  round2 (qv words / qv (specEffectiveWpm (some lang) level) + qv secs / qv 60)

/-- JSON whitespace accepted between tokens by Python `json.loads`. -/
def jsonWsChar (c : Char) : Bool :=
  c == ' ' || c == '\t' || c == '\n' || c == Char.ofNat 13

/-- Hex digit value. -/
def hexVal (c : Char) : Option Nat :=
  if c.isDigit then some (c.toNat - 48)
  else if 'a' ≤ c ∧ c ≤ 'f' then some (c.toNat - 87)
  else if 'A' ≤ c ∧ c ≤ 'F' then some (c.toNat - 55)
  else Option.none

/-- Parse the remainder of a JSON string literal after the opening quote
(standard escapes; `\uXXXX` without surrogate pairing, which the embedded
inputs never use). -/
def parseJString : Nat → List Char → List Char → Option (String × List Char)
  | 0, _, _ => Option.none
  | fuel + 1, acc, cs =>
    match cs with
    | [] => Option.none
    | c :: rest =>
      if c == '"' then some (String.mk acc.reverse, rest)
      else if c == '\\' then
        match rest with
        | [] => Option.none
        | e :: rest2 =>
          if e == '"' then parseJString fuel ('"' :: acc) rest2
          else if e == '\\' then parseJString fuel ('\\' :: acc) rest2
          else if e == '/' then parseJString fuel ('/' :: acc) rest2
          else if e == 'b' then parseJString fuel (Char.ofNat 8 :: acc) rest2
          else if e == 'f' then parseJString fuel (Char.ofNat 12 :: acc) rest2
          else if e == 'n' then parseJString fuel ('\n' :: acc) rest2
          else if e == 'r' then parseJString fuel (Char.ofNat 13 :: acc) rest2
          else if e == 't' then parseJString fuel ('\t' :: acc) rest2
          else if e == 'u' then
            match rest2 with
            | h1 :: h2 :: h3 :: h4 :: rest3 =>
              match hexVal h1, hexVal h2, hexVal h3, hexVal h4 with
              | some a, some b, some c3, some d =>
                parseJString fuel (Char.ofNat (((a * 16 + b) * 16 + c3) * 16 + d) :: acc) rest3
              | _, _, _, _ => Option.none
            | _ => Option.none
          else Option.none
      else if c.toNat < 32 then Option.none
      else parseJString fuel (c :: acc) rest

/-- Build the parsed JSON number value: integers stay exact `int`s, and
fractional or exponent forms become the nearest double. -/
def mkJNum (neg : Bool) (ip : Nat) (fracDigits : List Char) (hasFrac hasExp negE : Bool)
    (ev : Nat) : PyVal :=
  if ¬ hasFrac ∧ ¬ hasExp then
    .int (if neg then -(ip : Int) else (ip : Int))
  else
    let fracN := (parseDigitsAux fracDigits 0).getD 0
    let base : Qv := qv ip + mkQv (fracN : Int) ((10 ^ fracDigits.length : Nat) : Int)
    let scaled : Qv :=
      if hasExp then
        if negE then base / qv ((10 ^ ev : Nat) : Int) else base * qv ((10 ^ ev : Nat) : Int)
      else base
    .float (f64 (if neg then -scaled else scaled))

/-- Parse a JSON number token (strict grammar, including the
leading-zero restriction). -/
def parseJNumber (cs : List Char) : Option (PyVal × List Char) :=
  let (neg, cs1) : Bool × List Char :=
    match cs with
    | '-' :: rest => (true, rest)
    | rest => (false, rest)
  let intDigits := cs1.takeWhile Char.isDigit
  let cs2 := cs1.dropWhile Char.isDigit
  if intDigits.isEmpty then Option.none
  else if intDigits.length > 1 ∧ intDigits.headD '0' == '0' then Option.none
  else
    match parseDigitsAux intDigits 0 with
    | Option.none => Option.none
    | some ip =>
      let (fracDigits, cs3, hasFrac) : List Char × List Char × Bool :=
        match cs2 with
        | '.' :: rest => (rest.takeWhile Char.isDigit, rest.dropWhile Char.isDigit, true)
        | rest => ([], rest, false)
      if hasFrac ∧ fracDigits.isEmpty then Option.none
      else
        match cs3 with
        | c3 :: rest4 =>
          if c3 == 'e' || c3 == 'E' then
            let (negE, rest5) : Bool × List Char :=
              match rest4 with
              | '+' :: r => (false, r)
              | '-' :: r => (true, r)
              | r => (false, r)
            let eds := rest5.takeWhile Char.isDigit
            let rest6 := rest5.dropWhile Char.isDigit
            if eds.isEmpty then Option.none
            else
              match parseDigitsAux eds 0 with
              | some ev => some (mkJNum neg ip fracDigits hasFrac true negE ev, rest6)
              | Option.none => Option.none
          else some (mkJNum neg ip fracDigits hasFrac false false 0, cs3)
        | [] => some (mkJNum neg ip fracDigits hasFrac false false 0, [])

/-- Task of the fueled JSON parser: a value, the members of an object, or
the items of an array. -/
inductive JTask where
  | value (cs : List Char)
  | members (cs : List Char) (acc : PyDict)
  | items (cs : List Char) (acc : List PyVal)

/-- Strict JSON grammar of Python `json.loads` over a fuel bound (objects
keep the last binding of a duplicated key, as CPython does; trailing commas
and comments are syntax errors). -/
def parseJ : Nat → JTask → Option (PyVal × List Char)
  | 0, _ => Option.none
  | fuel + 1, t =>
    match t with
    | .value cs0 =>
      let cs := cs0.dropWhile jsonWsChar
      match cs with
      | [] => Option.none
      | c :: rest =>
        if c == '"' then
          match parseJString (rest.length + 1) [] rest with
          | some (s, r) => some (.str s, r)
          | Option.none => Option.none
        else if c == Char.ofNat 123 then
          let rest1 := rest.dropWhile jsonWsChar
          match rest1 with
          | c1 :: rest2 =>
            if c1 == Char.ofNat 125 then some (.dict [], rest2)
            else parseJ fuel (.members rest1 [])
          | [] => Option.none
        else if c == '[' then
          let rest1 := rest.dropWhile jsonWsChar
          match rest1 with
          | c1 :: rest2 =>
            if c1 == ']' then some (.list [], rest2)
            else parseJ fuel (.items rest1 [])
          | [] => Option.none
        else if List.isPrefixOf "true".toList cs then some (.bool true, cs.drop 4)
        else if List.isPrefixOf "false".toList cs then some (.bool false, cs.drop 5)
        else if List.isPrefixOf "null".toList cs then some (.none, cs.drop 4)
        else parseJNumber cs
    | .members cs acc =>
      let cs1 := cs.dropWhile jsonWsChar
      match cs1 with
      | c :: rest =>
        if c == '"' then
          match parseJString (rest.length + 1) [] rest with
          | some (k, r1) =>
            match r1.dropWhile jsonWsChar with
            | ':' :: r3 =>
              match parseJ fuel (.value r3) with
              | some (v, r4) =>
                let acc1 := dset acc k v
                match r4.dropWhile jsonWsChar with
                | ',' :: r6 => parseJ fuel (.members r6 acc1)
                | c2 :: r6 =>
                  if c2 == Char.ofNat 125 then some (.dict acc1, r6) else Option.none
                | [] => Option.none
              | Option.none => Option.none
            | _ => Option.none
          | Option.none => Option.none
        else Option.none
      | [] => Option.none
    | .items cs acc =>
      match parseJ fuel (.value cs) with
      | some (v, r1) =>
        let acc1 := acc ++ [v]
        match r1.dropWhile jsonWsChar with
        | ',' :: r2 => parseJ fuel (.items r2 acc1)
        | c2 :: r2 => if c2 == ']' then some (.list acc1, r2) else Option.none
        | [] => Option.none
      | Option.none => Option.none

/-- Embedding of Python `json.loads` (strict): one value, then only
whitespace to the end of the input. -/
def pyJsonLoads (s : String) : Option PyVal :=
  match parseJ (s.length * 2 + 4) (.value s.toList) with
  | some (v, rest) => if (rest.dropWhile jsonWsChar).isEmpty then some v else Option.none
  | Option.none => Option.none

/-- The fallback regex search of `_call_gemini` (open brace, any characters,
closing brace anchored at the end).  The end anchor matches at the end of
the string or just before one final newline, and the greedy middle makes
the unique match run from the first open brace to that final closing
brace. -/
def searchBraceToEnd (s : String) : Option String :=
  let cs := s.toList
  let cs := if cs.getLast? == some '\n' then cs.dropLast else cs
  if cs.getLast? == some (Char.ofNat 125) then
    match cs.dropWhile (fun c => c != Char.ofNat 123) with
    | [] => Option.none
    | span => some (String.mk span)
  else Option.none

/-- The JSON handling of `_call_gemini` after the LM content is obtained:
direct `json.loads`, then the first-brace-to-final-brace span; any failure
re-raises the decode error (treated upstream as an LM failure). -/
def geminiParseContent (content : String) : Except PyErr PyVal :=
  match pyJsonLoads content with
  | some d => .ok d
  | Option.none =>
    match searchBraceToEnd content with
    | Option.none => .error (.jsonDecodeError "Expecting value")
    | some t =>
      match pyJsonLoads t with
      | some d => .ok d
      | Option.none => .error (.jsonDecodeError "Expecting value")

/-- Non-brace character test for the depth-two brace regex. -/
def notBrace (c : Char) : Bool := c != Char.ofNat 123 && c != Char.ofNat 125

/-- Match the body of the depth-two brace pattern of
`_call_gemini_category` (non-brace run, then any number of single-level
brace pairs separated by non-brace runs, then the closing brace) at the
start of `cs`; the star iterations and maximal runs are forced by the next
brace met, so the scan is deterministic; a third nesting level fails the
attempt. -/
def matchDepth2 : Nat → List Char → List Char → Option (List Char)
  | 0, _, _ => Option.none
  | fuel + 1, acc, cs =>
    let run := cs.takeWhile notBrace
    let rest := cs.dropWhile notBrace
    match rest with
    | [] => Option.none
    | c :: rest2 =>
      if c == Char.ofNat 125 then some (acc ++ run ++ [c])
      else
        let run2 := rest2.takeWhile notBrace
        let rest3 := rest2.dropWhile notBrace
        match rest3 with
        | c2 :: rest4 =>
          if c2 == Char.ofNat 125 then
            matchDepth2 fuel (acc ++ run ++ [c] ++ run2 ++ [c2]) rest4
          else Option.none
        | [] => Option.none

/-- Search of the depth-two brace pattern (the first regex of the category
repair): the leftmost starting position at which the pattern matches. -/
def searchDepth2 : Nat → List Char → Option (List Char)
  | 0, _ => Option.none
  | fuel + 1, cs =>
    match cs with
    | [] => Option.none
    | c :: rest =>
      if c == Char.ofNat 123 then
        match matchDepth2 (rest.length + 1) [] rest with
        | some body => some (c :: body)
        | Option.none => searchDepth2 fuel rest
      else searchDepth2 fuel rest

/-- Tail of the fenced-block pattern after the group: `\s*` then three
backticks. -/
def fencedTailOk (cs : List Char) : Bool :=
  List.isPrefixOf "```".toList (cs.dropWhile isPyWs)

/-- The lazy brace group followed by whitespace and a closing fence:
the shortest extension whose closing brace is followed by the fence tail. -/
def lazyFencedBody : Nat → List Char → List Char → Option (List Char)
  | 0, _, _ => Option.none
  | fuel + 1, acc, cs =>
    match cs with
    | [] => Option.none
    | c :: rest =>
      if c == Char.ofNat 125 && fencedTailOk rest then some (acc ++ [c])
      else lazyFencedBody fuel (acc ++ [c]) rest

/-- Search of the fenced-block pattern (backtick fence, optional literal
json tag, whitespace, then the lazily matched brace group): returns the
first capture group of the leftmost match. -/
def searchFenced : Nat → List Char → Option (List Char)
  | 0, _ => Option.none
  | fuel + 1, cs =>
    match cs with
    | [] => Option.none
    | c :: rest =>
      if c == '`' ∧ List.isPrefixOf "``".toList rest then
        let afterFence := rest.drop 2
        let afterJson :=
          if List.isPrefixOf "json".toList afterFence then afterFence.drop 4 else afterFence
        match afterJson.dropWhile isPyWs with
        | b :: body =>
          if b == Char.ofNat 123 then
            match lazyFencedBody (body.length + 1) [] body with
            | some inner => some (b :: inner)
            | Option.none => searchFenced fuel rest
          else searchFenced fuel rest
        | [] => searchFenced fuel rest
      else searchFenced fuel rest

/-- The content handling of `_call_gemini_category` after the LM content is
obtained: the empty-content check, direct `json.loads`, the depth-two
brace-span scan (whose failed reparse raises without trying further
steps), and finally the fenced-block extraction.  (The schema validation
that follows a successful parse is outside this function.) -/
def categoryParseContent (content : String) : Except PyErr PyVal :=
  if content == "" ∨ trimStr content == "" ∨ trimStr content == "\x7b\x7d" then
    .error (.runtimeError "Empty response from Gemini")
  else
    match pyJsonLoads content with
    | some d => .ok d
    | Option.none =>
      match searchDepth2 content.toList.length content.toList with
      | some span =>
        match pyJsonLoads (String.mk span) with
        | some d => .ok d
        | Option.none => .error (.runtimeError "Invalid JSON in response")
      | Option.none =>
        match searchFenced content.toList.length content.toList with
        | some grp =>
          match pyJsonLoads (String.mk grp) with
          | some d => .ok d
          | Option.none => .error (.runtimeError "Invalid JSON in code block")
        | Option.none => .error (.runtimeError "No valid JSON found in response")

/-- Field lookup on a result object (statement helper). -/
def getField (v : PyVal) (k : String) : PyVal :=
  match v with
  | .dict d => dgetN d k
  | _ => .none

/-- Words a page contributes to the accurate scan (text/mixed pages only). -/
def pageWords (p : PageData) : Nat :=
  if classifyPage p.words p.imgs = "text" ∨ classifyPage p.words p.imgs = "mixed" then p.words
  else 0

/-- The clamped per-slide seconds `int(max(8, min(25, 6 + words / 10)))`. -/
def slideSeconds (p : PageData) : Int :=
  pyTrunc (Qv.bmax 8 (Qv.bmin 25 (f64add 6 (f64div (qv p.words) (qv 10)))))

/-- Nontext seconds a page contributes to the accurate scan (image seconds
on text/mixed pages, slide seconds on slide pages, 12 per table hit, and
`int(code_lines * 0.6)`). -/
def pageNontextSeconds (perImage : Int × Int) (p : PageData) : Int :=
  (if classifyPage p.words p.imgs = "text" ∨ classifyPage p.words p.imgs = "mixed" then
    (p.imgs : Int) * perImage.1
  else 0) +
  (if classifyPage p.words p.imgs = "slide" then slideSeconds p else 0) +
  (if p.tables > 0 then (p.tables : Int) * 12 else 0) +
  (if p.codeLines > 0 then pyTrunc (f64mul (qv p.codeLines) (f64 (mkQv 3 5))) else 0)

/-- The Normalizer output on the empty LM object with empty metadata and
empty source text (used to witness schema validity of a concrete run). -/
def emptyNormalized : PyVal :=
  .dict [("doc_language", .str "ru"),
    ("volume", .dict [("word_count", .int 0), ("char_count", .int 0), ("page_count", .none),
      ("byte_size", .none), ("reading_time_min", .float 0),
      ("method", .dict [("word_count", .str "precomputed"),
        ("char_count", .str "estimated_no_spaces")])]),
    ("complexity", .dict [("score", .int 40), ("level", .str "средняя"),
      ("estimated_grade", .str "школьный"), ("drivers", .list []), ("notes", .str "")]),
    ("topics", .list []),
    ("category", .dict [("label", .str "Другое"), ("score", .float 0),
      ("basis", .str "none"), ("keywords", .list [])]),
    ("limitations", .dict [("short_or_noisy_input", .bool true), ("comments", .str "")])]

set_option maxRecDepth 40000

/-- Destructuring of a successful `Except` bind. -/
theorem except_bind_ok {ε α β : Type} {x : Except ε α} {f : α → Except ε β} {b : β}
    (h : (x >>= f) = .ok b) : ∃ a, x = .ok a ∧ f a = .ok b := by
  cases x with
  | error e => simp [Bind.bind, Except.bind] at h
  | ok a => exact ⟨a, rfl, by simpa [Bind.bind, Except.bind] using h⟩

/-- Setting a key makes it present with the written value. -/
theorem dlookup_dset_self (d : PyDict) (k : String) (v : PyVal) :
    dlookup (dset d k v) k = some v := by
  induction d with
  | nil => simp [dset, dlookup]
  | cons kv rest ih =>
    obtain ⟨k1, v1⟩ := kv
    by_cases h : k1 = k
    · simp [dset, dlookup, h]
    · simp [dset, dlookup, h, ih]

/-- Setting one key leaves the other keys unchanged. -/
theorem dlookup_dset_ne (d : PyDict) (k k' : String) (v : PyVal) (h : k' ≠ k) :
    dlookup (dset d k' v) k = dlookup d k := by
  induction d with
  | nil =>
    simp only [dset, dlookup]
    rw [if_neg h]
  | cons kv rest ih =>
    obtain ⟨k1, v1⟩ := kv
    by_cases h1 : k1 = k'
    · subst h1; simp [dset, dlookup, h]
    · simp [dset, dlookup, h1, ih]

/-- A set key is a member. -/
theorem dmem_dset_self (d : PyDict) (k : String) (v : PyVal) :
    dmem (dset d k v) k = true := by simp [dmem, dlookup_dset_self]

/-- Membership is preserved by setting any key. -/
theorem dmem_dset (d : PyDict) (k k' : String) (v : PyVal) (h : dmem d k = true) :
    dmem (dset d k' v) k = true := by
  by_cases hk : k' = k
  · subst hk; simp [dmem, dlookup_dset_self]
  · simp only [dmem, dlookup_dset_ne _ _ _ _ hk]
    exact h

/-- A defaulted key is a member afterwards. -/
theorem dmem_dictSetDefault_self (d : PyDict) (k : String) (v : PyVal) :
    dmem (dictSetDefault d k v) k = true := by
  unfold dictSetDefault
  by_cases h : dmem d k
  · simpa [h]
  · simp [h, dmem_dset_self]

/-- Membership is preserved by defaulting any key. -/
theorem dmem_dictSetDefault (d : PyDict) (k k' : String) (v : PyVal) (h : dmem d k = true) :
    dmem (dictSetDefault d k' v) k = true := by
  unfold dictSetDefault
  by_cases hc : dmem d k'
  · simpa [hc]
  · simpa [hc] using dmem_dset _ _ _ _ h

/-- A successful `reading_time_min` fallback yields the field and preserves
the others. -/
theorem volRtm_skeleton (vol : PyDict) (dl : PyVal) (v' : PyDict)
    (h : volRtm vol dl = .ok v') :
    dmem v' "reading_time_min" = true ∧ ∀ k, dmem vol k = true → dmem v' k = true := by
  unfold volRtm at h
  by_cases hc : dmem vol "reading_time_min"
  · rw [if_pos hc] at h
    simp only [pure, Except.pure, Except.ok.injEq] at h
    subst h
    exact ⟨hc, fun _ hk => hk⟩
  · rw [if_neg hc] at h
    obtain ⟨rtm, h1, h⟩ := except_bind_ok h
    simp only [pure, Except.pure, Except.ok.injEq] at h
    subst h
    exact ⟨dmem_dset_self _ _ _, fun _ hk => dmem_dset _ _ _ _ hk⟩

/-- A successful `notes` fallback yields the field and preserves the
others. -/
theorem compNotes_skeleton (comp : PyDict) (raw : PyVal) (c' : PyDict)
    (h : compNotes comp raw = .ok c') :
    dmem c' "notes" = true ∧ ∀ k, dmem comp k = true → dmem c' k = true := by
  unfold compNotes at h
  by_cases hc : dmem comp "notes"
  · rw [if_pos hc] at h
    simp only [pure, Except.pure, Except.ok.injEq] at h
    subst h
    exact ⟨hc, fun _ hk => hk⟩
  · rw [if_neg hc] at h
    obtain ⟨a, h1, h⟩ := except_bind_ok h
    obtain ⟨b, h2, h⟩ := except_bind_ok h
    simp only [pure, Except.pure, Except.ok.injEq] at h
    subst h
    exact ⟨dmem_dset_self _ _ _, fun _ hk => dmem_dset _ _ _ _ hk⟩

/-- Every successful `volume` section has the six required fields, with a
`method` sub-dict holding its two required fields. -/
theorem buildVolume_skeleton (raw : PyVal) (meta : PyDict) (text : String) (dl : PyVal)
    (vol : PyDict) (h : buildVolume raw meta text dl = .ok vol) :
    dmem vol "word_count" = true ∧ dmem vol "char_count" = true ∧
    dmem vol "page_count" = true ∧ dmem vol "byte_size" = true ∧
    dmem vol "reading_time_min" = true ∧
    (∃ md : PyDict, dlookup vol "method" = some (.dict md) ∧
      dmem md "word_count" = true ∧ dmem md "char_count" = true) := by
  unfold buildVolume at h
  obtain ⟨v0, h0, h⟩ := except_bind_ok h
  try simp only [] at h
  obtain ⟨v5, h5, h⟩ := except_bind_ok h
  simp only [pure, Except.pure, Except.ok.injEq] at h
  subst h
  obtain ⟨hrtm, hpres⟩ := volRtm_skeleton _ _ _ h5
  refine ⟨?_, ?_, ?_, ?_, ?_, ?_⟩
  · exact dmem_dset _ _ _ _ (hpres _ (dmem_dictSetDefault _ _ _ _ (dmem_dictSetDefault _ _ _ _
      (dmem_dictSetDefault _ _ _ _ (dmem_dictSetDefault_self _ _ _)))))
  · exact dmem_dset _ _ _ _ (hpres _ (dmem_dictSetDefault _ _ _ _
      (dmem_dictSetDefault _ _ _ _ (dmem_dictSetDefault_self _ _ _))))
  · exact dmem_dset _ _ _ _ (hpres _ (dmem_dictSetDefault _ _ _ _
      (dmem_dictSetDefault_self _ _ _)))
  · exact dmem_dset _ _ _ _ (hpres _ (dmem_dictSetDefault_self _ _ _))
  · exact dmem_dset _ _ _ _ hrtm
  · exact ⟨_, dlookup_dset_self _ _ _, rfl, rfl⟩

/-- Every successful `complexity` section has the five required fields. -/
theorem buildComplexity_skeleton (raw : PyVal) (comp : PyDict)
    (h : buildComplexity raw = .ok comp) :
    dmem comp "score" = true ∧ dmem comp "level" = true ∧
    dmem comp "estimated_grade" = true ∧ dmem comp "drivers" = true ∧
    dmem comp "notes" = true := by
  unfold buildComplexity at h
  obtain ⟨c0, h0, h⟩ := except_bind_ok h
  try simp only [] at h
  obtain ⟨hnotes, hpres⟩ := compNotes_skeleton _ _ _ h
  refine ⟨?_, ?_, ?_, ?_, hnotes⟩
  · exact hpres _ (dmem_dictSetDefault _ _ _ _ (dmem_dictSetDefault _ _ _ _
      (dmem_dictSetDefault _ _ _ _ (dmem_dictSetDefault_self _ _ _))))
  · exact hpres _ (dmem_dictSetDefault _ _ _ _ (dmem_dictSetDefault _ _ _ _
      (dmem_dictSetDefault_self _ _ _)))
  · exact hpres _ (dmem_dictSetDefault _ _ _ _ (dmem_dictSetDefault_self _ _ _))
  · exact hpres _ (dmem_dictSetDefault_self _ _ _)

/-- Every successful `category` section has the four required fields. -/
theorem buildCategory_skeleton (nd data : PyDict) (cat : PyDict)
    (h : buildCategory nd data = .ok cat) :
    dmem cat "label" = true ∧ dmem cat "score" = true ∧
    dmem cat "basis" = true ∧ dmem cat "keywords" = true := by
  unfold buildCategory at h
  obtain ⟨la, h1, h⟩ := except_bind_ok h
  try simp only [] at h
  obtain ⟨lb, h2, h⟩ := except_bind_ok h
  try simp only [] at h
  obtain ⟨lc, h3, h⟩ := except_bind_ok h
  try simp only [] at h
  obtain ⟨s0, h4, h⟩ := except_bind_ok h
  try simp only [] at h
  obtain ⟨sc, h5, h⟩ := except_bind_ok h
  try simp only [] at h
  obtain ⟨b1, h6, h⟩ := except_bind_ok h
  try simp only [] at h
  obtain ⟨b2, h7, h⟩ := except_bind_ok h
  try simp only [] at h
  obtain ⟨b3, h8, h⟩ := except_bind_ok h
  try simp only [] at h
  obtain ⟨b4, h9, h⟩ := except_bind_ok h
  try simp only [] at h
  obtain ⟨k1, h10, h⟩ := except_bind_ok h
  try simp only [] at h
  obtain ⟨k2, h11, h⟩ := except_bind_ok h
  simp only [pure, Except.pure, Except.ok.injEq] at h
  subst h
  exact ⟨rfl, rfl, rfl, rfl⟩

/-- Every successful `limitations` section has its two required fields. -/
theorem buildLimitations_skeleton (raw : PyVal) (w1 : Nat) (lim : PyDict)
    (h : buildLimitations raw w1 = .ok lim) :
    dmem lim "short_or_noisy_input" = true ∧ dmem lim "comments" = true := by
  unfold buildLimitations at h
  obtain ⟨a, h1, h⟩ := except_bind_ok h
  try simp only [] at h
  obtain ⟨b, h2, h⟩ := except_bind_ok h
  try simp only [] at h
  obtain ⟨c, h3, h⟩ := except_bind_ok h
  simp only [pure, Except.pure, Except.ok.injEq] at h
  subst h
  exact ⟨rfl, rfl⟩

/-- A topic built from the single-object branch has the four item fields. -/
theorem topicFromDict_shape (d : PyDict) (t : PyVal) (h : topicFromDict d = some t) :
    ∃ td : PyDict, t = .dict td ∧ dmem td "label" = true ∧ dmem td "score" = true ∧
      dmem td "keywords" = true ∧ dmem td "rationale" = true := by
  unfold topicFromDict at h
  simp only [] at h
  split at h
  · simp only [Option.some.injEq] at h
    subst h
    exact ⟨_, rfl, rfl, rfl, rfl, rfl⟩
  · simp at h

/-- A topic built from a list item has the four item fields. -/
theorem topicFromListItem_shape (a : PyVal) (t : PyVal) (h : topicFromListItem a = some t) :
    ∃ td : PyDict, t = .dict td ∧ dmem td "label" = true ∧ dmem td "score" = true ∧
      dmem td "keywords" = true ∧ dmem td "rationale" = true := by
  unfold topicFromListItem at h
  cases a with
  | dict d =>
    simp only [] at h
    split at h
    · simp only [Option.some.injEq] at h
      subst h
      exact ⟨_, rfl, rfl, rfl, rfl, rfl⟩
    · simp at h
  | none => simp at h
  | bool b => simp at h
  | int i => simp at h
  | float q => simp at h
  | str s => simp at h
  | list xs => simp at h

/-- Every topic the Normalizer builds has the four item fields. -/
theorem buildTopics_item (raw : PyVal) (t : PyVal) (h : t ∈ buildTopics raw) :
    ∃ td : PyDict, t = .dict td ∧ dmem td "label" = true ∧ dmem td "score" = true ∧
      dmem td "keywords" = true ∧ dmem td "rationale" = true := by
  unfold buildTopics at h
  cases raw with
  | dict d =>
    rw [Option.mem_toList, Option.mem_def] at h
    exact topicFromDict_shape _ _ h
  | list ts =>
    rw [List.mem_filterMap] at h
    obtain ⟨a, _, ha⟩ := h
    exact topicFromListItem_shape _ _ ha
  | none => simp at h
  | bool b => simp at h
  | int i => simp at h
  | float q => simp at h
  | str s => simp at h

/-- One page loop iteration adds exactly the page word contribution. -/
theorem accStep_totalWords (perImage : Int × Int) (acc : AccAcc) (p : PageData) :
    (accStep perImage acc p).totalWords = acc.totalWords + pageWords p := by
  unfold accStep pageWords
  split_ifs <;>
    simp_all [apply_ite AccAcc.totalWords, ite_self]

/-- One page loop iteration adds exactly the page nontext seconds. -/
theorem accStep_seconds (perImage : Int × Int) (acc : AccAcc) (p : PageData) :
    (accStep perImage acc p).imagesS + (accStep perImage acc p).tablesS +
      (accStep perImage acc p).codeS + (accStep perImage acc p).slidesS =
    acc.imagesS + acc.tablesS + acc.codeS + acc.slidesS + pageNontextSeconds perImage p := by
  unfold accStep pageNontextSeconds slideSeconds
  split_ifs <;>
    simp_all [apply_ite AccAcc.imagesS, apply_ite AccAcc.tablesS, apply_ite AccAcc.codeS,
      apply_ite AccAcc.slidesS, ite_self] <;>
    ring

/-- The page loop accumulates the sum of per-page word contributions. -/
theorem foldl_accStep_words (perImage : Int × Int) (pages : List PageData) :
    ∀ acc : AccAcc, (pages.foldl (accStep perImage) acc).totalWords =
      acc.totalWords + (pages.map pageWords).sum := by
  induction pages with
  | nil => intro acc; simp
  | cons p ps ih =>
    intro acc
    simp only [List.foldl_cons, List.map_cons, List.sum_cons]
    rw [ih, accStep_totalWords]
    omega

/-- The page loop accumulates the sum of per-page nontext seconds. -/
theorem foldl_accStep_seconds (perImage : Int × Int) (pages : List PageData) :
    ∀ acc : AccAcc,
      (pages.foldl (accStep perImage) acc).imagesS + (pages.foldl (accStep perImage) acc).tablesS +
      (pages.foldl (accStep perImage) acc).codeS + (pages.foldl (accStep perImage) acc).slidesS =
      acc.imagesS + acc.tablesS + acc.codeS + acc.slidesS +
        (pages.map (pageNontextSeconds perImage)).sum := by
  induction pages with
  | nil => intro acc; simp
  | cons p ps ih =>
    intro acc
    simp only [List.foldl_cons, List.map_cons, List.sum_cons]
    rw [ih, accStep_seconds]
    ring

/-- C1 (amended): schema totality does not hold as stated — the Normalizer
can raise on wrongly-typed input (see the counterexample) — but whenever
`_normalize_llm_response` does return, every `required` field of
`ANALYSIS_JSON_SCHEMA` is present at every nesting level and `topics` keeps
at most six entries; moreover on the empty LM object with empty metadata
the output validates fully (types included) against the schema. -/
theorem c1_normalizer_required_fields :
    (∀ (data meta : PyDict) (text : String) (detect : String → Option String) (r : PyVal),
      normalizeLlmResponse data meta text detect = .ok r → skeletonOk r = true) ∧
    (match normalizeLlmResponse [] [] "" (fun _ => Option.none) with
     | .ok r => analysisSchemaValid r
     | .error _ => false) = true := by
  refine ⟨?_, rfl⟩
  intro data meta text detect r h
  unfold normalizeLlmResponse at h
  obtain ⟨vol, hv, h⟩ := except_bind_ok h
  try simp only [] at h
  obtain ⟨comp, hc, h⟩ := except_bind_ok h
  try simp only [] at h
  obtain ⟨cat, hcat, h⟩ := except_bind_ok h
  try simp only [] at h
  obtain ⟨lim, hlim, h⟩ := except_bind_ok h
  simp only [pure, Except.pure, Except.ok.injEq] at h
  subst h
  obtain ⟨w1, w2, w3, w4, w5, md, hmd, m1, m2⟩ := buildVolume_skeleton _ _ _ _ _ hv
  obtain ⟨d1, d2, d3, d4, d5⟩ := buildComplexity_skeleton _ _ hc
  obtain ⟨g1, g2, g3, g4⟩ := buildCategory_skeleton _ _ _ hcat
  obtain ⟨l1, l2⟩ := buildLimitations_skeleton _ _ _ hlim
  simp [skeletonOk, reqKey, dlookup, w1, w2, w3, w4, w5, hmd, m1, m2, d1, d2, d3, d4, d5,
        g1, g2, g3, g4, l1, l2, List.length_take]
  intro t ht
  obtain ⟨td, rfl, p1, p2, p3, p4⟩ := buildTopics_item _ _ (List.take_subset _ _ ht)
  simp [p1, p2, p3, p4]

/-- C1 witness: the required-field theorem applied to the empty input, on
which the Normalizer succeeds and produces the expected literal. -/
theorem c1_normalizer_required_fields_witness :
    normalizeLlmResponse [] [] "" (fun _ => Option.none) = .ok emptyNormalized ∧
    skeletonOk emptyNormalized = true :=
  ⟨rfl, c1_normalizer_required_fields.1 [] [] "" (fun _ => Option.none) emptyNormalized rfl⟩

/-- C1 counterexample: on the wrongly-typed input where `category` is the
string `"misc"`, `_normalize_llm_response` does not return a schema-valid
object — it raises `AttributeError` at `category_raw.get("label")`, so the
claimed schema totality fails. -/
theorem c1_normalizer_raises_on_string_category :
    normalizeLlmResponse [("category", PyVal.str "misc")] [] "" (fun _ => Option.none) =
      .error (.attributeError "object has no attribute get") := rfl

/-- C2 (code bug): with every provider unreachable (the LM call raising),
`analyze_text_tool` is supposed to return the Heuristic Analyzer result,
but for metadata carrying `source_name = None` — a value the repository's
own extractor produces for URL sources without a basename — the fallback
itself raises `AttributeError` at `meta.get("source_name", "").lower()`,
and the exception propagates to the caller.  On metadata without that value
the fallback result is schema-valid, as the second conjunct shows. -/
theorem c2_analyze_propagates_attribute_error :
    analyzeTextTool "" (some [("source_name", PyVal.none)]) false
      (.error (.runtimeError "all providers unreachable")) (fun _ => Option.none) =
      .error (.attributeError "object has no attribute lower") ∧
    (analyzeTextTool "" (some []) false (.error (.runtimeError "all providers unreachable"))
      (fun _ => Option.none)).map analysisSchemaValid = .ok true := ⟨rfl, rfl⟩

/-- C3 counterexample: with providers `[A, B]` where A is LiteLLM-routed,
fails transiently on its first two calls and would succeed on the third,
and `max_retries = 3`, the Router does not retry A — it invokes B and
returns B's result, with no backoff sleeps at all. -/
theorem c3_litellm_transient_fails_over_immediately :
    routerGenerateContent
      [⟨"A", .litellm (fun n => if n < 2 then .failure "503 overloaded" else .success "from A")⟩,
       ⟨"B", .litellm (fun _ => .success "from B")⟩] 3 =
      (.ok ("from B", "B"), ["A", "B"], []) := rfl

/-- C3 (amended): only the GigaChat direct-client provider is retried in
place: with A the direct client failing transiently twice then succeeding
and `max_retries = 3`, the Router returns A's result without ever invoking
B, after exponential backoff sleeps of 2 and 4 seconds. -/
theorem c3_direct_client_retries_with_backoff :
    routerGenerateContent
      [⟨"A", .direct (fun n =>
          if n < 2 then .excTransient "503 Service Unavailable" else .httpOk "from A")⟩,
       ⟨"B", .litellm (fun _ => .success "from B")⟩] 3 =
      (.ok ("from A", "A"), ["A"], [2, 4]) := rfl

/-- C4 counterexample: an LM output wrapped in a fenced json block is not
recovered by `_call_gemini` (its only fallback requires the content to end
with a closing brace), and an output with one trailing comma before the
closing brace is recovered by neither `_call_gemini` nor
`_call_gemini_category` — no repair rung strips trailing commas. -/
theorem c4_fenced_and_trailing_comma_not_recovered :
    geminiParseContent "```json\n\x7b\"a\": 1\x7d\n```" =
      .error (.jsonDecodeError "Expecting value") ∧
    geminiParseContent "\x7b\"a\": 1,\x7d" = .error (.jsonDecodeError "Expecting value") ∧
    categoryParseContent "\x7b\"a\": 1,\x7d" = .error (.runtimeError "Invalid JSON in response") :=
  ⟨rfl, rfl, rfl⟩

/-- C4 (amended): the actual repair behaviour — `_call_gemini_category`
recovers a fenced json block through its balanced-brace scan, and
`_call_gemini` recovers content whose first brace opens a JSON object that
runs to a final closing brace; there is no comment or trailing-comma
stripping rung anywhere. -/
theorem c4_actual_repair_behaviour :
    categoryParseContent "```json\n\x7b\"a\": 1\x7d\n```" = .ok (.dict [("a", .int 1)]) ∧
    geminiParseContent "model says: \x7b\"a\": 1\x7d" = .ok (.dict [("a", .int 1)]) := ⟨rfl, rfl⟩

/-- C5 (code bug): the Heuristic Analyzer is documented as never raising,
but on metadata carrying `source_name = None` it raises `AttributeError`
at `meta.get("source_name", "").lower()` (the `.get` default only covers
the key being absent, not a stored `None`).  With the key absent it
succeeds and its result is schema-valid, as the second conjunct shows. -/
theorem c5_fallback_raises_on_none_source_name :
    fallbackSimpleAnalysis "" [("source_name", PyVal.none)] (fun _ => Option.none) =
      .error (.attributeError "object has no attribute lower") ∧
    (fallbackSimpleAnalysis "" [] (fun _ => Option.none)).map analysisSchemaValid = .ok true :=
  ⟨rfl, rfl⟩

/-- C6 counterexample: the specification formula (exact
`base_wpm × complexity_factor` with a 60 floor, total =
`round2(words / eff + seconds / 60)`) disagrees with the code.  First, the
code computes `int(180 * 0.7) = 125` (the float product is just below 126),
so a 252-word Russian document at high complexity yields 2.02 minutes where
the formula says 2.0.  Second, the code rounds `text_min` and `nontext_min`
to two decimals before summing: an English page of 100 words with 2 seconds
of code time yields 0.74 where the unrounded formula says 0.75 (the
effective WPM agrees at 140 there). -/
theorem c6_spec_formula_differs :
    (accurateEstimate [⟨252, 0, 0, 0⟩] "ru" (some "высокая") (3, 10)).totalMin = 2.02 ∧
    (accurateEstimate [⟨252, 0, 0, 0⟩] "ru" (some "высокая") (3, 10)).effWpm = 125 ∧
    specC6Total 252 0 "ru" (some "высокая") = 2 ∧ (2.02 : Qv) ≠ 2 ∧
    specEffectiveWpm (some "ru") (some "высокая") = 126 ∧
    (accurateEstimate [⟨100, 0, 0, 4⟩] "en" (some "высокая") (3, 10)).totalMin = 0.74 ∧
    (accurateEstimate [⟨100, 0, 0, 4⟩] "en" (some "высокая") (3, 10)).words = 100 ∧
    (accurateEstimate [⟨100, 0, 0, 4⟩] "en" (some "высокая") (3, 10)).codeS = 2 ∧
    (accurateEstimate [⟨100, 0, 0, 4⟩] "en" (some "высокая") (3, 10)).effWpm = 140 ∧
    specC6Total 100 2 "en" (some "высокая") = 0.75 ∧ (0.74 : Qv) ≠ 0.75 := by
  refine ⟨rfl, rfl, rfl, by decide, rfl, rfl, rfl, rfl, rfl, rfl, by decide⟩

/-- C6 (amended): in accurate mode the estimator computes effective WPM as
`max(60, int(base_wpm(language) * complexity_factor(level)))` in IEEE float
arithmetic (factors 1.10 / 1.00 / 0.85 / 0.70 / 0.55, base 200 for
English-like languages and 180 otherwise); `text_min` is
`round2(words / effective_wpm)` over the text/mixed page words, and
`nontext_min` is `round2((image + table + code + slide seconds) / 60)`;
the total is the sum of those two already-rounded values, rounded again to
two decimals. -/
theorem c6_accurate_estimate_closed_form (pages : List PageData) (lang : String)
    (level : Option String) (perImage : Int × Int) :
    (accurateEstimate pages lang level perImage).effWpm =
      effectiveWpm (baseWpm (some lang)) level ∧
    (accurateEstimate pages lang level perImage).words = ((pages.map pageWords).sum : Int) ∧
    (accurateEstimate pages lang level perImage).textMin =
      round2 (f64div (qv ((pages.map pageWords).sum : Int))
        (qv (max 1 (effectiveWpm (baseWpm (some lang)) level)))) ∧
    (accurateEstimate pages lang level perImage).nontextMin =
      round2 (f64div (qv ((pages.map (pageNontextSeconds perImage)).sum)) (qv 60)) ∧
    (accurateEstimate pages lang level perImage).totalMin =
      round2 ((accurateEstimate pages lang level perImage).textMin +
        (accurateEstimate pages lang level perImage).nontextMin) := by
  have hw := foldl_accStep_words perImage pages accInit
  have hs := foldl_accStep_seconds perImage pages accInit
  simp only [accInit] at hw hs
  unfold accurateEstimate
  refine ⟨rfl, ?_, ?_, ?_, rfl⟩
  · simp [hw, accInit]
  · simp [hw, accInit]
  · simp only [accInit] at hs ⊢
    rw [hs]
    simp

/-- C7: whenever accurate mode is requested but the page count exceeds the
configured ceiling (`PDF_MCP_MAX_PAGES`, default 200),
`estimate_pdf_reading_time_minutes` switches to fast mode and returns the
fast-fallback estimate. -/
theorem c7_fast_mode_ceiling (pages : List PageData) (maxPages : Int) (perImage : Int × Int)
    (lang : String) (level : Option String) (h : (pages.length : Int) > maxPages) :
    estimatePdfReadingTimeMinutes "accurate" maxPages perImage pages lang level =
      (fastFallback pages lang level, "fast") := by
  unfold estimatePdfReadingTimeMinutes
  rw [if_pos ⟨rfl, h⟩]
  rfl

/-- C7 witness: a 201-page document against the default ceiling of 200. -/
theorem c7_fast_mode_ceiling_witness :
    ((List.replicate 201 (⟨300, 0, 0, 0⟩ : PageData)).length : Int) > 200 ∧
    estimatePdfReadingTimeMinutes "accurate" 200 (3, 10)
      (List.replicate 201 ⟨300, 0, 0, 0⟩) "ru" Option.none =
      (fastFallback (List.replicate 201 ⟨300, 0, 0, 0⟩) "ru" Option.none, "fast") :=
  ⟨by decide, c7_fast_mode_ceiling _ _ _ _ _ (by decide)⟩

/-- C8: the Normalizer rescales `complexity.score` exactly as claimed — the
float 0.8 normalizes to the integer 80 (`int(0.8 * 100)` in IEEE floats),
and the integer 4 on the 1-5 scale normalizes to 80 (`int((4 / 5) * 100)`). -/
theorem c8_score_rescaling :
    (normalizeLlmResponse [("complexity", PyVal.dict [("score", PyVal.float (f64 (mkQv 4 5)))])]
      [] "" (fun _ => Option.none)).map
      (fun r => getField (getField r "complexity") "score") = .ok (.int 80) ∧
    (normalizeLlmResponse [("complexity", PyVal.dict [("score", PyVal.int 4)])]
      [] "" (fun _ => Option.none)).map
      (fun r => getField (getField r "complexity") "score") = .ok (.int 80) := ⟨rfl, rfl⟩

/-- C9: with zero existing categories and the LM call raising,
`classify_or_create_category_tool` returns (never raises) the neutral
decision `created_new` whose category basis is `"unknown"`, for every
source text and metadata. -/
theorem c9_category_neutral_fallback (text : String) (meta : Option PyDict)
    (ex : Option (List PyVal)) (e : PyErr) :
    classifyOrCreateCategoryTool text meta ex (.error e) = .ok neutralCategoryDecision ∧
    getField neutralCategoryDecision "decision" = .str "created_new" ∧
    getField (getField neutralCategoryDecision "category") "basis" = .str "unknown" :=
  ⟨rfl, rfl, rfl⟩

/-- C10: in the score coercion the 0-1 branch is checked before the 1-5
branch, so every integer score with `0 ≤ v ≤ 1` is multiplied by 100: an LM
score of 1 (the lowest value of the 1-5 scale) normalizes to 100 rather
than 20, 0 normalizes to 0, and the 1-5 rescaling only reaches the integers
2 through 5 (mapped to 40, 60, 80, 100). -/
theorem c10_zero_one_branch_precedence :
    (∀ v : Int, 0 ≤ v → v ≤ 1 → complexityTransform "score" (.int v) = .int (v * 100)) ∧
    (normalizeLlmResponse [("complexity", PyVal.dict [("score", PyVal.int 1)])]
      [] "" (fun _ => Option.none)).map
      (fun r => getField (getField r "complexity") "score") = .ok (.int 100) ∧
    (normalizeLlmResponse [("complexity", PyVal.dict [("score", PyVal.int 0)])]
      [] "" (fun _ => Option.none)).map
      (fun r => getField (getField r "complexity") "score") = .ok (.int 0) ∧
    complexityTransform "score" (.int 2) = .int 40 ∧
    complexityTransform "score" (.int 3) = .int 60 ∧
    complexityTransform "score" (.int 4) = .int 80 ∧
    complexityTransform "score" (.int 5) = .int 100 := by
  refine ⟨?_, rfl, rfl, rfl, rfl, rfl, rfl⟩
  intro v h0 h1
  interval_cases v <;> rfl

/-- C10 witness: the 0-1 branch theorem applied at the integer score 1. -/
theorem c10_zero_one_branch_precedence_witness :
    (0 : Int) ≤ 1 ∧ (1 : Int) ≤ 1 ∧
    complexityTransform "score" (.int 1) = .int (1 * 100) :=
  ⟨by decide, by decide, c10_zero_one_branch_precedence.1 1 (by decide) (by decide)⟩
